import Mathlib

/-!
Shallow embedding of the answer-generation and entry-mapping logic of the
google_forms_auto_fill repository (src/mind.py and src/app.py).

Conventions of the embedding:
* Python exceptions are modelled by `PyErr`; fallible code returns `Except`.
* The global random number generator is modelled by an explicit stream of
  natural-number draws (`RandS`).  Each stdlib primitive consumes draws:
  - `random.choice(seq)` picks `seq[n % len seq]` for the next draw `n`
    and raises IndexError on an empty sequence;
  - `random.randint(a, b)` (with `a <= b` at every call site that cannot
    raise) yields `a + n % (b - a + 1)`;
  - `random.shuffle` / `random.sample` are modelled by selection shuffling:
    repeatedly draw an index into the remaining list, move that element out.
    This produces exactly the permutations / without-replacement samples the
    stdlib can produce, which is what the verified properties depend on.
* Python machine floats for sentiment scores are modelled by `Rat`; the
  comparisons 0.33 / 0.66 are exact in both settings.  `int(0.6 * n)` equals
  `3 * n / 5` in natural-number division for every list length `n` that can
  occur (the double product rounds to the exact value; proof by analysis of
  the relative error, which is below half an ulp).
* Strings are manipulated through their character lists, mirroring CPython
  semantics for `str.split`, `str.strip`, `str.lower`, `str.capitalize` on
  the ASCII range.
-/

/-- Python exception kinds that the modelled code can raise. -/
inductive PyErr where
  | valueError
  | indexError
  | keyError
  | typeError
deriving DecidableEq, Repr

/-- Decidable equality for `Except` values, used to evaluate concrete
runs of the embedded code. -/
instance exceptDecEq {ε α : Type _} [DecidableEq ε] [DecidableEq α] :
    DecidableEq (Except ε α)
  | .error a, .error b =>
    if h : a = b then .isTrue (by rw [h]) else .isFalse (by simp [h])
  | .error _, .ok _ => .isFalse (by simp)
  | .ok _, .error _ => .isFalse (by simp)
  | .ok a, .ok b =>
    if h : a = b then .isTrue (by rw [h]) else .isFalse (by simp [h])

/-- The stream of random draws backing the global `random` module. -/
abbrev RandS := List Nat

/-- Pop one draw from the stream (an exhausted stream keeps yielding 0;
all theorems quantify over every stream, so this default is never load
bearing). -/
def drawNat : RandS → Nat × RandS
  | [] => (0, [])
  | n :: s => (n, s)

/-- Model of `random.choice(seq)`: raises IndexError on an empty sequence,
otherwise returns an arbitrary element selected by the next draw. -/
def randChoice (l : List α) (s : RandS) : Except PyErr (α × RandS) :=
  match l with
  | [] => .error .indexError
  | x :: xs =>
      let (n, s1) := drawNat s
      .ok ((x :: xs).get ⟨n % (x :: xs).length, Nat.mod_lt _ (Nat.succ_pos _)⟩, s1)

/-- Model of `random.randint(a, b)` at call sites where `a <= b` is
guaranteed (every call site in this code satisfies that, see
`choiceGenerate` and `processGeneratedAnswer`). -/
def randintTot (a b : Nat) (s : RandS) : Nat × RandS :=
  let (n, s1) := drawNat s
  (a + n % (b + 1 - a), s1)

/-- Structural worker for the shuffle model: the fuel always equals the
length of the remaining list. -/
def shuffleSelAux : Nat → List α → RandS → List α × RandS
  | 0, _, s => ([], s)
  | _ + 1, [], s => ([], s)
  | fuel + 1, x :: xs, s =>
      let l := x :: xs
      let (n, s1) := drawNat s
      let j : Fin l.length := ⟨n % l.length, Nat.mod_lt _ (Nat.succ_pos _)⟩
      let rest := shuffleSelAux fuel (l.eraseIdx j.1) s1
      (l.get j :: rest.1, rest.2)

/-- Model of `random.shuffle`: selection shuffle driven by the draw
stream. -/
def shuffleSel (l : List α) (s : RandS) : List α × RandS :=
  shuffleSelAux l.length l s

/-- Model of `random.sample(l, k)`: `k` selections without replacement.
Raises ValueError when `k` exceeds the population size (never happens at
the call site, where the bound is proved). -/
def sampleSel : List α → Nat → RandS → Except PyErr (List α × RandS)
  | _, 0, s => .ok ([], s)
  | [], _ + 1, _ => .error .valueError
  | x :: xs, k + 1, s =>
      let l := x :: xs
      let (n, s1) := drawNat s
      let j : Fin l.length := ⟨n % l.length, Nat.mod_lt _ (Nat.succ_pos _)⟩
      match sampleSel (l.eraseIdx j.1) k s1 with
      | .error e => .error e
      | .ok (r, s2) => .ok (l.get j :: r, s2)

/-- Python whitespace characters recognised by `str.strip` / `str.split` /
the regex class `\s` (ASCII range). -/
def isPySpace (c : Char) : Bool :=
  c = ' ' || c = '\t' || c = '\n' || c = '\x0d' || c = '\x0b' || c = '\x0c'

/-- `str.strip()` on a character list. -/
def pyStripList (l : List Char) : List Char :=
  ((l.dropWhile isPySpace).reverse.dropWhile isPySpace).reverse

/-- `str.strip()`. -/
def pyStrip (s : String) : String :=
  String.mk (pyStripList s.data)

/-- `str.lower()` (ASCII range). -/
def pyLower (s : String) : String :=
  String.mk (s.data.map Char.toLower)

/-- `str.capitalize()` (ASCII range): first character uppercased, the rest
lowercased. -/
def pyCapitalize (s : String) : String :=
  match s.data with
  | [] => ""
  | c :: rest => String.mk (c.toUpper :: rest.map Char.toLower)

/-- `str.split(sep)` for a one-character separator, on character lists. -/
def splitOnCharList (sep : Char) (l : List Char) : List (List Char) :=
  l.foldr
    (fun c acc =>
      match acc with
      | [] => [[c]]
      | g :: gs => if c = sep then [] :: g :: gs else (c :: g) :: gs)
    [[]]

/-- `str.split(",")`. -/
def pySplitComma (s : String) : List String :=
  (splitOnCharList ',' s.data).map String.mk

/-- Helper for `str.split()` (no separator): accumulate maximal runs of
non-whitespace characters. -/
def splitWSAux (l : List Char) : List Char × List (List Char) :=
  l.foldr
    (fun c acc =>
      if isPySpace c then
        match acc with
        | ([], gs) => ([], gs)
        | (g, gs) => ([], g :: gs)
      else (c :: acc.1, acc.2))
    ([], [])

/-- `str.split()` with no separator: split on whitespace runs, dropping
empty fields. -/
def pySplitWS (s : String) : List String :=
  (match splitWSAux s.data with
   | ([], gs) => gs
   | (g, gs) => g :: gs).map String.mk

/-- Membership of `string.punctuation` (the ASCII punctuation block:
codes 33-47, 58-64, 91-96, 123-126). -/
def isPunct (c : Char) : Bool :=
  (33 ≤ c.toNat && c.toNat ≤ 47) || (58 ≤ c.toNat && c.toNat ≤ 64) ||
  (91 ≤ c.toNat && c.toNat ≤ 96) || (123 ≤ c.toNat && c.toNat ≤ 126)

/-- Substring test (`needle in hay` for Python strings), on lists. -/
def containsSubList [DecidableEq α] : List α → List α → Bool
  | needle, [] => needle.isEmpty
  | needle, c :: rest =>
      (needle.isPrefixOf (c :: rest)) || containsSubList needle rest

/-- Substring test for strings: `needle in hay` in Python. -/
def containsSub (needle hay : String) : Bool :=
  containsSubList needle.data hay.data

/-- String join: `sep.join(parts)`. -/
def joinWith (sep : String) : List String → String
  | [] => ""
  | [x] => x
  | x :: y :: rest => x ++ sep ++ joinWith sep (y :: rest)

/-- UTF-8 encoding of one character, as byte values. -/
def utf8EncodeCharNat (c : Char) : List Nat :=
  let n := c.toNat
  if n < 128 then [n]
  else if n < 2048 then [192 + n / 64, 128 + n % 64]
  else if n < 65536 then [224 + n / 4096, 128 + (n / 64) % 64, 128 + n % 64]
  else [240 + n / 262144, 128 + (n / 4096) % 64, 128 + (n / 64) % 64, 128 + n % 64]

/-- Uppercase hexadecimal digit. -/
def hexDigit (n : Nat) : Char :=
  if n < 10 then Char.ofNat (48 + n) else Char.ofNat (55 + n)

/-- Percent-encoding of one byte for `urllib.parse.quote_plus`: ASCII
letters, digits and `_.-~` stay, a space becomes a plus, everything else
becomes `%XX`. -/
def quotePlusByte (b : Nat) : List Char :=
  if (65 ≤ b && b ≤ 90) || (97 ≤ b && b ≤ 122) || (48 ≤ b && b ≤ 57) ||
     b = 95 || b = 46 || b = 45 || b = 126 then [Char.ofNat b]
  else if b = 32 then ['+']
  else ['%', hexDigit (b / 16), hexDigit (b % 16)]

/-- Model of `urllib.parse.quote_plus` with its default safe set. -/
def quotePlus (s : String) : String :=
  String.mk ((s.data.flatMap utf8EncodeCharNat).flatMap quotePlusByte)

/-!
Data model: the JSON question items as the code accesses them.  A Python
dict key that the code tests or defaults with `.get` is modelled as an
`Option` (or a `Bool` when only presence matters); a key the code indexes
directly raises `KeyError` through the `Except` plumbing when absent.
-/

/-- One entry of a choice question's `options` array; the `value` key may
be absent (the code tests `"value" in choice`). -/
structure OptionItem where
  value : Option String
deriving DecidableEq, Repr

/-- The `choiceQuestion` payload: `type` read with `.get("type", "")`,
plus the `options` array. -/
structure ChoiceQuestion where
  type : Option String
  options : List OptionItem
deriving DecidableEq, Repr

/-- The `scaleQuestion` payload with its `low` and `high` bounds. -/
structure ScaleQuestion where
  low : Int
  high : Int
deriving DecidableEq, Repr

/-- The `question` object inside `questionItem`: its id and which of the
kind-specific payloads are present (`textQuestion` presence only ever
matters as a key test). -/
structure InnerQuestion where
  questionId : String
  textQuestion : Bool
  choiceQuestion : Option ChoiceQuestion
  scaleQuestion : Option ScaleQuestion
deriving DecidableEq, Repr

/-- The `questionItem` wrapper. -/
structure QuestionItem where
  question : InnerQuestion
deriving DecidableEq, Repr

/-- The `rowQuestion` object of one grid row. -/
structure RowQuestion where
  title : String
deriving DecidableEq, Repr

/-- One row of a `questionGroupItem`. -/
structure GroupRow where
  questionId : String
  rowQuestion : RowQuestion
deriving DecidableEq, Repr

/-- The `questionGroupItem` payload: its rows and the column options
reached through `grid.columns.options` (each `.get` collapsing a missing
level to the empty list). -/
structure GroupItem where
  questions : List GroupRow
  columnOptions : List OptionItem
deriving DecidableEq, Repr

/-- One item of the form schema's `items` array. -/
structure Item where
  title : Option String
  questionItem : Option QuestionItem
  questionGroupItem : Option GroupItem
deriving DecidableEq, Repr

/-- The structured response dictionary every strategy builds. -/
structure AnswerRecord where
  entryId : String
  questionId : String
  question_title : String
  answers : List String
deriving DecidableEq, Repr

/-- Modelled from the spec: the module-level configuration imported from
`config.py`, which is not part of the sources (only its names
`AI_PROMPT`, `SKIP_WORDS`, `SKIP_PHRASES`, `IGNORE_SENTIMENT_QUESTIONS`
appear in `mind.py`).  The spec describes them as a configured skip-word
set, skip-phrase set, a sentiment-relevance word list and a fixed
instruction prompt; their contents are opaque, so they are explicit
parameters here. -/
structure Config where
  skipWords : List String
  skipPhrases : List String
  ignoreSentimentQuestions : List String
  aiPrompt : String
deriving DecidableEq, Repr

/-!
TextAnswerStrategy (mind.py).  The OpenAI call is the external
collaborator `gen : String -> String`, applied to the full prompt the
code builds.
-/

/-- The word list of `_process_generated_answer`: every period removed
(`text.replace(".", "")`), then split on commas into stripped nonempty
words. -/
def answerWords (text : String) : List String :=
  (pySplitComma (String.mk (text.data.filter (fun c => c ≠ '.')))).filterMap
    (fun w => let w1 := pyStrip w; if w1 = "" then none else some w1)

/-- The final step of `_process_generated_answer`: drop the last
character when it is a punctuation mark. -/
def stripTrailingPunct (r : String) : String :=
  match r.data.getLast? with
  | some c => if isPunct c then String.mk r.data.dropLast else r
  | none => r

/-- `TextAnswerStrategy._process_generated_answer`: remove every period,
split on commas into stripped nonempty words, shuffle, keep
`randint(1, min(4, len(words)))` words, coin-flip capitalize/lower each,
join with a comma-space, and drop one trailing punctuation character. -/
def processGeneratedAnswer (text : String) (s : RandS) : String × RandS :=
  let words := answerWords text
  if words = [] then ("", s)
  else
    let (shuffled, s1) := shuffleSel words s
    let (numWords, s2) := randintTot 1 (min 4 words.length) s1
    let selected := shuffled.take numWords
    let (cased, s3) := selected.foldl
      (fun (acc : List String × RandS) w =>
        let (n, sNext) := drawNat acc.2
        (acc.1 ++ [if n % 2 = 0 then pyCapitalize w else pyLower w], sNext))
      ([], s2)
    (stripTrailingPunct (joinWith ", " cased), s3)

/-- The result of one strategy call as the caller observes it: `None`
(a caught ValueError), the empty dict `{}` (the skip-phrase path), one
response dict, or the matrix strategy's list of dicts. -/
inductive StratResult where
  | noneRes
  | emptyDict
  | record (r : AnswerRecord)
  | recs (rs : List AnswerRecord)
deriving DecidableEq, Repr

/-- `TextAnswerStrategy.generate_answer`. -/
def textGenerate (cfg : Config) (gen : String → String) (q : Item)
    (s : RandS) : Except PyErr (StratResult × RandS) :=
  match q.questionItem with
  | none => .error .keyError
  | some qi =>
    match q.title with
    | none => .error .keyError
    | some t =>
      let questionText := pyStrip t
      if cfg.skipPhrases.any (fun p => containsSub p (pyLower questionText)) then
        .ok (.emptyDict, s)
      else if containsSub "country" (pyLower questionText) then
        match randChoice ["Romania", "Germany", "Austria"] s with
        | .error e => .error e
        | .ok (c, s1) =>
          .ok (.record ⟨"<TO ADD>", qi.question.questionId, questionText, [c]⟩, s1)
      else
        let raw := gen (cfg.aiPrompt ++ "\n\n" ++ questionText)
        let (ans, s1) := processGeneratedAnswer raw s
        .ok (.record ⟨"<TO ADD>", qi.question.questionId, questionText, [ans]⟩, s1)

/-!
ChoiceAnswerStrategy (mind.py).
-/

/-- Python slice `l[a:b]` for natural bounds. -/
def pySlice (l : List α) (a b : Nat) : List α :=
  (l.drop a).take (b - a)

/-- `ChoiceAnswerStrategy._get_choices_based_on_sentiment`: overlapping
bands with cutoffs `max(2, n//3)` and `2*n//3`. -/
def getChoicesBasedOnSentiment (choiceValues : List String) (score : ℚ) :
    List String :=
  let numChoices := choiceValues.length
  if numChoices = 0 then []
  else
    let lowCutoff := max 2 (numChoices / 3)
    let mediumCutoff := 2 * numChoices / 3
    if score < mkRat 33 100 then choiceValues.take mediumCutoff
    else if score < mkRat 66 100 then pySlice choiceValues lowCutoff mediumCutoff
    else choiceValues.drop mediumCutoff

/-- The option filter shared with the checkbox path: keep a choice's
(unstripped) `value` when the key is present and its stripped lowercase
form is not a skip word. -/
def filteredChoiceValues (cfg : Config) (options : List OptionItem) :
    List String :=
  options.filterMap
    (fun o =>
      match o.value with
      | none => none
      | some v =>
        if cfg.skipWords.contains (pyLower (pyStrip v)) then none else some v)

/-- The sentiment-relevance test of the single-select path:
`any(q.lower() in question_text.lower().split() for q in
IGNORE_SENTIMENT_QUESTIONS)`. -/
def sentimentFlagged (cfg : Config) (questionText : String) : Bool :=
  cfg.ignoreSentimentQuestions.any
    (fun w => (pySplitWS (pyLower questionText)).contains (pyLower w))

/-- `ChoiceAnswerStrategy.generate_answer`. -/
def choiceGenerate (cfg : Config) (q : Item) (score : ℚ) (s : RandS) :
    Except PyErr (AnswerRecord × RandS) :=
  match q.questionItem with
  | none => .error .keyError
  | some qi =>
    match q.title with
    | none => .error .keyError
    | some questionText =>
      match qi.question.choiceQuestion with
      | none => .error .keyError
      | some cq =>
        let choiceValues := filteredChoiceValues cfg cq.options
        let questionType := cq.type.getD ""
        if questionType = "CHECKBOX" then
          let minChoices := min 2 choiceValues.length
          let maxChoices := max minChoices (3 * choiceValues.length / 5)
          let (numChoices, s1) := randintTot minChoices maxChoices s
          match sampleSel choiceValues numChoices s1 with
          | .error e => .error e
          | .ok (answers, s2) =>
            .ok (⟨"<TO ADD>", qi.question.questionId, questionText, answers⟩, s2)
        else
          let possibleChoices :=
            if sentimentFlagged cfg questionText then
              let band := getChoicesBasedOnSentiment choiceValues score
              if band = [] then choiceValues else band
            else choiceValues
          match randChoice possibleChoices s with
          | .error e => .error e
          | .ok (a, s1) =>
            .ok (⟨"<TO ADD>", qi.question.questionId, questionText, [a]⟩, s1)

/-!
ScaleAnswerStrategy (mind.py).
-/

/-- `ScaleAnswerStrategy._get_values_based_on_sentiment`: raises on an
inverted scale, otherwise bands the inclusive range with cutoffs
`max(1, n//3)` and `2*n//3` (the medium band reaching one past the
second cutoff) and shuffles the selected band. -/
def getValuesBasedOnSentiment (low high : Int) (score : ℚ) (s : RandS) :
    Except PyErr (List Int × RandS) :=
  if low > high then .error .valueError
  else
    let scaleRange := (List.range (high + 1 - low).toNat).map (fun i => low + Int.ofNat i)
    let numValues := scaleRange.length
    let lowCutoff := max 1 (numValues / 3)
    let mediumCutoff := 2 * numValues / 3
    let possibleValues :=
      if score < mkRat 33 100 then scaleRange.take mediumCutoff
      else if score < mkRat 66 100 then pySlice scaleRange lowCutoff (mediumCutoff + 1)
      else scaleRange.drop mediumCutoff
    .ok (shuffleSel possibleValues s)

/-- `ScaleAnswerStrategy.generate_answer`. -/
def scaleGenerate (q : Item) (score : ℚ) (s : RandS) :
    Except PyErr (AnswerRecord × RandS) :=
  match q.questionItem with
  | none => .error .keyError
  | some qi =>
    match q.title with
    | none => .error .keyError
    | some questionText =>
      match qi.question.scaleQuestion with
      | none => .error .keyError
      | some sq =>
        match getValuesBasedOnSentiment sq.low sq.high score s with
        | .error e => .error e
        | .ok (possibleValues, s1) =>
          match randChoice possibleValues s1 with
          | .error e => .error e
          | .ok (v, s2) =>
            .ok (⟨"<TO ADD>", qi.question.questionId, questionText, [toString v]⟩, s2)

/-!
MatrixAnswerStrategy (mind.py).
-/

/-- `MatrixAnswerStrategy._get_matrix_choice_based_on_sentiment`:
non-overlapping bands with cutoffs `max(1, n//3)` and `2*n//3`, falling
back to the full list when the selected band is empty. -/
def getMatrixChoiceBasedOnSentiment (choiceValues : List String)
    (score : ℚ) (s : RandS) : Except PyErr (String × RandS) :=
  let numChoices := choiceValues.length
  if numChoices = 0 then .error .valueError
  else
    let lowCutoff := max 1 (numChoices / 3)
    let mediumCutoff := 2 * numChoices / 3
    let possibleChoices :=
      if score < mkRat 33 100 then choiceValues.take lowCutoff
      else if score < mkRat 66 100 then pySlice choiceValues lowCutoff mediumCutoff
      else choiceValues.drop mediumCutoff
    if possibleChoices = [] then randChoice choiceValues s
    else randChoice possibleChoices s

/-- The per-row loop of `MatrixAnswerStrategy.generate_answer`. -/
def matrixRowsLoop (choiceValues : List String) (score : ℚ) :
    List GroupRow → RandS → Except PyErr (List AnswerRecord × RandS)
  | [], s => .ok ([], s)
  | row :: rest, s =>
    match getMatrixChoiceBasedOnSentiment choiceValues score s with
    | .error e => .error e
    | .ok (chosen, s1) =>
      match matrixRowsLoop choiceValues score rest s1 with
      | .error e => .error e
      | .ok (tail, s2) =>
        .ok (⟨"<TO ADD>", row.questionId, row.rowQuestion.title, [chosen]⟩ :: tail, s2)

/-- `MatrixAnswerStrategy.generate_answer`: the column values are read by
direct indexing (`option["value"]`), so a missing value key raises
KeyError. -/
def matrixGenerate (q : Item) (score : ℚ) (s : RandS) :
    Except PyErr (List AnswerRecord × RandS) :=
  let gridData := q.questionGroupItem
  let questions := (gridData.map GroupItem.questions).getD []
  let columns := (gridData.map GroupItem.columnOptions).getD []
  if questions = [] || columns = [] then .error .valueError
  else
    match columns.mapM OptionItem.value with
    | none => .error .keyError
    | some choiceValues => matrixRowsLoop choiceValues score questions s

/-!
AnswerStrategyFactory (mind.py) and the app-level pipeline (app.py).
-/

/-- The four strategies. -/
inductive Strat where
  | text
  | choice
  | scale
  | matrix
deriving DecidableEq, Repr

/-- `AnswerStrategyFactory.get_strategy`: dispatch on the declared
sub-kind of `questionItem.question`, then on the presence of
`questionGroupItem`; `ValueError("Unknown question type")` otherwise. -/
def getStrategy (q : Item) : Except PyErr Strat :=
  let textPresent :=
    match q.questionItem with
    | none => false
    | some qi => qi.question.textQuestion
  let choicePresent :=
    match q.questionItem with
    | none => false
    | some qi => qi.question.choiceQuestion.isSome
  let scalePresent :=
    match q.questionItem with
    | none => false
    | some qi => qi.question.scaleQuestion.isSome
  if textPresent then .ok .text
  else if choicePresent then .ok .choice
  else if scalePresent then .ok .scale
  else if q.questionGroupItem.isSome then .ok .matrix
  else .error .valueError

/-- Run the selected strategy. -/
def runStrategy (cfg : Config) (gen : String → String) :
    Strat → Item → ℚ → RandS → Except PyErr (StratResult × RandS)
  | .text, q, _, s => textGenerate cfg gen q s
  | .choice, q, score, s =>
      match choiceGenerate cfg q score s with
      | .error e => .error e
      | .ok (r, s1) => .ok (.record r, s1)
  | .scale, q, score, s =>
      match scaleGenerate q score s with
      | .error e => .error e
      | .ok (r, s1) => .ok (.record r, s1)
  | .matrix, q, score, s =>
      match matrixGenerate q score s with
      | .error e => .error e
      | .ok (rs, s1) => .ok (.recs rs, s1)

/-- `app.generate_answer`: dispatch through the factory and run the
strategy, catching only `ValueError` (logged, `None` returned).  Every
ValueError the strategies raise occurs before any draw is consumed, so
returning the incoming stream on the caught path is faithful. -/
def generateAnswerApp (cfg : Config) (gen : String → String) (q : Item)
    (score : ℚ) (s : RandS) : Except PyErr (StratResult × RandS) :=
  match getStrategy q with
  | .error .valueError => .ok (.noneRes, s)
  | .error e => .error e
  | .ok strat =>
    match runStrategy cfg gen strat q score s with
    | .error .valueError => .ok (.noneRes, s)
    | .error e => .error e
    | .ok (res, s1) => .ok (res, s1)

/-- One element of the `all_answers` list that `generate_submission_payload`
accumulates.  Besides response dicts it can contain plain strings (when
`list.extend` is fed a dict, Python iterates its keys) and, in principle,
a whole list appended as one element; the later stages treat anything but
a dict per the `isinstance` check. -/
inductive Entry where
  | record (r : AnswerRecord)
  | str (s : String)
  | listEnt (rs : List AnswerRecord)
deriving DecidableEq, Repr

/-- `all_answers.extend(row_answers)` on the grid branch: extending with
`None` raises TypeError, a dict contributes its keys as strings, a list
contributes its elements. -/
def extendEntries : StratResult → Except PyErr (List Entry)
  | .noneRes => .error .typeError
  | .emptyDict => .ok []
  | .record _ => .ok (["entryId", "questionId", "question_title", "answers"].map .str)
  | .recs rs => .ok (rs.map .record)

/-- `if answer_obj: all_answers.append(answer_obj)` on the standard
branch: `None` and `{}` are falsy and skipped. -/
def appendEntry : StratResult → List Entry
  | .noneRes => []
  | .emptyDict => []
  | .record r => [.record r]
  | .recs rs => if rs = [] then [] else [.listEnt rs]

/-- The answer-gathering loop of `generate_submission_payload`: grid
questions are extended, standard questions appended, items with neither
key skipped. -/
def gatherAnswers (cfg : Config) (gen : String → String) :
    List Item → ℚ → RandS → Except PyErr (List Entry × RandS)
  | [], _, s => .ok ([], s)
  | q :: rest, score, s =>
    if q.questionGroupItem.isSome then
      match generateAnswerApp cfg gen q score s with
      | .error e => .error e
      | .ok (res, s1) =>
        match extendEntries res with
        | .error e => .error e
        | .ok es =>
          match gatherAnswers cfg gen rest score s1 with
          | .error e => .error e
          | .ok (tail, s2) => .ok (es ++ tail, s2)
    else if q.questionItem.isSome then
      match generateAnswerApp cfg gen q score s with
      | .error e => .error e
      | .ok (res, s1) =>
        match gatherAnswers cfg gen rest score s1 with
        | .error e => .error e
        | .ok (tail, s2) => .ok (appendEntry res ++ tail, s2)
    else gatherAnswers cfg gen rest score s

/-!
Entry map construction and resolution (app.py).
-/

/-- The persisted per-form entry map: question title to submission field
identifier, as an ordered association list with Python-dict key
semantics. -/
abbrev EntryMap := List (String × String)

/-- Key membership in an entry map (`key in dict`). -/
def keyMem (k : String) (m : EntryMap) : Bool :=
  m.any (fun p => p.1 = k)

/-- Key lookup (`dict[key]`). -/
def lookupKey (k : String) : EntryMap → Option String
  | [] => none
  | p :: rest => if p.1 = k then some p.2 else lookupKey k rest

/-- Python-dict insertion: overwrite in place when the key exists,
append otherwise. -/
def dictInsert (m : EntryMap) (k v : String) : EntryMap :=
  if keyMem k m then m.map (fun p => if p.1 = k then (k, v) else p)
  else m ++ [(k, v)]

/-- One iteration of the `gather_entry_data_init` loop: record the item
title when it strips to a nonempty string, then record every grid row
title (stripped, added unconditionally). -/
def gatherStep (m : EntryMap) (item : Item) : EntryMap :=
  let m1 :=
    match item.title with
    | some t => if pyStrip t = "" then m else dictInsert m (pyStrip t) "entry.XXXX"
    | none => m
  match item.questionGroupItem with
  | some g =>
    g.questions.foldl
      (fun m2 row => dictInsert m2 (pyStrip row.rowQuestion.title) "entry.XXXX")
      m1
  | none => m1

/-- `gather_entry_data_init`: one `entry.XXXX` entry for every item title
that strips to a nonempty string, plus one for every grid row title. -/
def gatherEntryDataInit (items : List Item) : EntryMap :=
  items.foldl gatherStep []

/-- Does a map key match the section-header regex `^Section\s+\d+:`
(anchored search)? -/
def matchesSectionKey (k : String) : Bool :=
  match k.data with
  | 'S' :: 'e' :: 'c' :: 't' :: 'i' :: 'o' :: 'n' :: rest =>
    let ws := rest.takeWhile isPySpace
    let afterWs := rest.drop ws.length
    let ds := afterWs.takeWhile Char.isDigit
    let afterDs := afterWs.drop ds.length
    !ws.isEmpty && !ds.isEmpty && afterDs.head? = some ':'
  | _ => false

/-- The section count: how many keys of the loaded map look like
`Section N:` headers. -/
def sectionCountOf (m : EntryMap) : Nat :=
  (m.map Prod.fst).countP matchesSectionKey

/-- The two shapes `_map_entry_with_question` can return: the normal
`(data, section_count)` tuple, or — on the empty-mapping early return —
the bare list (which makes the caller's tuple unpacking blow up). -/
inductive MapReturn where
  | tup (data : List Entry) (sectionCount : Nat)
  | dataOnly (data : List Entry)
deriving DecidableEq, Repr

/-- The per-item rewrite loop of `_map_entry_with_question`: non-dict
entries are skipped, titles stripping to the empty string are skipped,
a stripped title missing from the map raises ValueError, otherwise the
entry id is rewritten. -/
def mapEntryLoop (m : EntryMap) : List Entry → Except PyErr (List Entry)
  | [] => .ok []
  | .record r :: rest =>
    let t := pyStrip r.question_title
    if t = "" then
      match mapEntryLoop m rest with
      | .error e => .error e
      | .ok tail => .ok (.record r :: tail)
    else
      match lookupKey t m with
      | none => .error .valueError
      | some eid =>
        match mapEntryLoop m rest with
        | .error e => .error e
        | .ok tail => .ok (.record { r with entryId := eid } :: tail)
  | e :: rest =>
    match mapEntryLoop m rest with
    | .error e2 => .error e2
    | .ok tail => .ok (e :: tail)

/-- `_map_entry_with_question` for a loaded, present mapping: computes
the section count, returns the bare data when the mapping is empty
(falsy), else runs the rewrite loop and returns the tuple. -/
def mapEntryWithQuestion (m : EntryMap) (data : List Entry) :
    Except PyErr MapReturn :=
  let sectionCount := sectionCountOf m
  if m = [] then .ok (.dataOnly data)
  else
    match mapEntryLoop m data with
    | .error e => .error e
    | .ok updated => .ok (.tup updated sectionCount)

/-!
Payload assembly (app.py, `generate_submission_payload`).
-/

/-- The `entry.xxx=value` parts contributed by one resolved entry;
indexing a non-dict entry with a string key raises TypeError. -/
def entryParts : Entry → Except PyErr (List String)
  | .record r => .ok (r.answers.map (fun a => r.entryId ++ "=" ++ quotePlus a))
  | .str _ => .error .typeError
  | .listEnt _ => .error .typeError

/-- The payload-part loop over all resolved entries. -/
def buildParts : List Entry → Except PyErr (List String)
  | [] => .ok []
  | e :: rest =>
    match entryParts e with
    | .error err => .error err
    | .ok ps =>
      match buildParts rest with
      | .error err => .error err
      | .ok tail => .ok (ps ++ tail)

/-- `generate_submission_payload`, with the mapping file contents passed
in: gather the answers, resolve entry ids, pick the action marker by the
section count, and join all parts with ampersands.  The early
`return data` of an empty mapping surfaces at the caller as an unpacking
or comparison error. -/
def generateSubmissionPayload (cfg : Config) (gen : String → String)
    (m : EntryMap) (questions : List Item) (score : ℚ) (s : RandS) :
    Except PyErr String :=
  match gatherAnswers cfg gen questions score s with
  | .error e => .error e
  | .ok (allAnswers, _) =>
    match mapEntryWithQuestion m allAnswers with
    | .error e => .error e
    | .ok (.dataOnly d) =>
      .error (if d.length = 2 then .typeError else .valueError)
    | .ok (.tup resolved sectionCount) =>
      let action :=
        if sectionCount > 0 then
          "&pageHistory=" ++
            joinWith "," ((List.range (sectionCount + 1)).map (fun i => toString i))
        else "usp=pp_url"
      match buildParts resolved with
      | .error e => .error e
      | .ok parts => .ok (joinWith "&" (action :: parts))

/-!
Sentiment sampling (app.py).
-/

/-- The `(mean, std_dev)` table of `_generate_gaussian_sentiment`,
defaulting to the medium parameters. -/
def sentimentParams (sentimentLevel : String) : ℚ × ℚ :=
  if sentimentLevel = "low" then (2/10, 1/10)
  else if sentimentLevel = "medium" then (5/10, 2/10)
  else if sentimentLevel = "high" then (8/10, 1/10)
  else (5/10, 2/10)

/-- `_generate_gaussian_sentiment`, with the `random.gauss` collaborator
passed in as an oracle from the selected `(mean, std_dev)` pair to the
drawn value: the drawn value clamped to the unit interval. -/
def generateGaussianSentiment (sentimentLevel : String)
    (gauss : ℚ × ℚ → ℚ) : ℚ :=
  max 0 (min 1 (gauss (sentimentParams sentimentLevel)))

/-!
Auxiliary lemmas about the random primitives and the string helpers.
-/

theorem perm_get_cons_eraseIdx :
    ∀ (l : List α) (j : Fin l.length), l.Perm (l.get j :: l.eraseIdx j.1)
  | x :: xs, ⟨0, _⟩ => by simp
  | x :: xs, ⟨j + 1, hj⟩ => by
      have ih := perm_get_cons_eraseIdx xs ⟨j, Nat.lt_of_succ_lt_succ hj⟩
      simpa [List.eraseIdx] using (ih.cons x).trans (List.Perm.swap _ _ _)

theorem randChoice_ok_mem {l : List α} {s s1 : RandS} {a : α}
    (h : randChoice l s = .ok (a, s1)) : a ∈ l := by
  match l with
  | [] => simp [randChoice] at h
  | x :: xs =>
    simp only [randChoice] at h
    cases h' : drawNat s with
    | mk n s2 =>
      rw [h'] at h
      simp only [Except.ok.injEq, Prod.mk.injEq] at h
      rw [← h.1]
      exact List.get_mem _ _ _

theorem randintTot_bounds {a b : Nat} (hab : a ≤ b) (s : RandS) :
    a ≤ (randintTot a b s).1 ∧ (randintTot a b s).1 ≤ b := by
  unfold randintTot
  cases drawNat s with
  | mk n s1 =>
    simp only
    constructor
    · omega
    · have : n % (b + 1 - a) < b + 1 - a := Nat.mod_lt _ (by omega)
      omega

theorem shuffleSelAux_perm :
    ∀ (fuel : Nat) (l : List α) (s : RandS), fuel = l.length →
      (shuffleSelAux fuel l s).1.Perm l := by
  intro fuel
  induction fuel with
  | zero =>
    intro l s hl
    cases l with
    | nil => simp [shuffleSelAux]
    | cons x xs => simp at hl
  | succ fuel ih =>
    intro l s hl
    cases l with
    | nil => simp [shuffleSelAux]
    | cons x xs =>
      rw [shuffleSelAux]
      cases hd : drawNat s with
      | mk n s1 =>
        simp only
        have hx : n % (x :: xs).length < (x :: xs).length :=
          Nat.mod_lt _ (Nat.succ_pos _)
        have P := perm_get_cons_eraseIdx (x :: xs)
          ⟨n % (x :: xs).length, hx⟩
        have hlen : fuel = ((x :: xs).eraseIdx (n % (x :: xs).length)).length := by
          simp only [List.length_eraseIdx, hx, if_true]
          simp only [List.length_cons] at hl ⊢
          omega
        have ihr := ih ((x :: xs).eraseIdx (n % (x :: xs).length)) s1 hlen
        exact (ihr.cons _).trans P.symm

theorem shuffleSel_perm (l : List α) (s : RandS) : (shuffleSel l s).1.Perm l :=
  shuffleSelAux_perm l.length l s rfl

theorem shuffleSel_mem {l : List α} {s : RandS} {a : α}
    (h : a ∈ (shuffleSel l s).1) : a ∈ l :=
  (shuffleSel_perm l s).mem_iff.mp h

theorem shuffleSel_length (l : List α) (s : RandS) :
    (shuffleSel l s).1.length = l.length :=
  (shuffleSel_perm l s).length_eq

theorem sampleSel_ok :
    ∀ (k : Nat) (l : List α) (s : RandS) (r : List α) (s2 : RandS),
      sampleSel l k s = .ok (r, s2) → r.length = k ∧ r.Subperm l := by
  intro k
  induction k with
  | zero =>
    intro l s r s2 h
    have h0 : sampleSel l (0 : Nat) s = (.ok ([], s) : Except PyErr (List α × RandS)) := by
      cases l <;> rfl
    rw [h0] at h
    simp only [Except.ok.injEq, Prod.mk.injEq] at h
    rw [← h.1]
    exact ⟨rfl, List.nil_subperm⟩
  | succ k ih =>
    intro l s r s2 h
    match l with
    | [] => simp [sampleSel] at h
    | x :: xs =>
      rw [sampleSel] at h
      cases hd : drawNat s with
      | mk n s1 =>
        rw [hd] at h
        simp only at h
        cases hrec : sampleSel ((x :: xs).eraseIdx (n % (x :: xs).length)) k s1 with
        | error e => rw [hrec] at h; cases h
        | ok p =>
          obtain ⟨r1, s3⟩ := p
          rw [hrec] at h
          simp only [Except.ok.injEq, Prod.mk.injEq] at h
          obtain ⟨h1, h2⟩ := h
          have ihr := ih _ _ _ _ hrec
          rw [← h1]
          constructor
          · simp [ihr.1]
          · have hsub : List.Subperm
                ((x :: xs).get ⟨n % (x :: xs).length, Nat.mod_lt _ (Nat.succ_pos _)⟩ :: r1)
                ((x :: xs).get ⟨n % (x :: xs).length, Nat.mod_lt _ (Nat.succ_pos _)⟩ ::
                  (x :: xs).eraseIdx (n % (x :: xs).length)) :=
              (List.subperm_cons _).mpr ihr.2
            exact hsub.trans (perm_get_cons_eraseIdx (x :: xs) _).symm.subperm

theorem dropWhile_self (p : α → Bool) (l : List α) :
    (l.dropWhile p).dropWhile p = l.dropWhile p := by
  induction l with
  | nil => rfl
  | cons c cs ih =>
    by_cases h : p c
    · simp [List.dropWhile_cons, h, ih]
    · simp [List.dropWhile_cons, h]

theorem head?_dropWhile_not (p : α → Bool) (l : List α) {c : α}
    (h : (l.dropWhile p).head? = some c) : p c = false := by
  induction l with
  | nil => simp [List.dropWhile] at h
  | cons x xs ih =>
    by_cases hx : p x
    · rw [List.dropWhile_cons_of_pos hx] at h
      exact ih h
    · rw [List.dropWhile_cons_of_neg hx] at h
      simp only [List.head?_cons, Option.some.injEq] at h
      rw [← h]
      exact Bool.of_not_eq_true hx

theorem dropWhile_eq_self_of_head (p : α → Bool) (l : List α)
    (h : ∀ c, l.head? = some c → p c = false) : l.dropWhile p = l := by
  cases l with
  | nil => rfl
  | cons x xs =>
    have := h x rfl
    simp [List.dropWhile_cons, this]

theorem getLast?_dropWhile (p : α → Bool) (l : List α)
    (h : l.dropWhile p ≠ []) : (l.dropWhile p).getLast? = l.getLast? := by
  induction l with
  | nil => simp at h
  | cons x xs ih =>
    by_cases hx : p x
    · rw [List.dropWhile_cons_of_pos hx] at h ⊢
      rw [ih h]
      have hxs : xs ≠ [] := by
        intro hn
        rw [hn] at h
        simp [List.dropWhile] at h
      cases xs with
      | nil => exact absurd rfl hxs
      | cons y ys => rfl
    · rw [List.dropWhile_cons_of_neg hx]

/-- Stripping is idempotent (`t.strip().strip() == t.strip()`). -/
theorem pyStripList_idem (l : List Char) :
    pyStripList (pyStripList l) = pyStripList l := by
  unfold pyStripList
  set A := l.dropWhile isPySpace with hA
  set B := A.reverse.dropWhile isPySpace with hB
  have h1 : B.reverse.dropWhile isPySpace = B.reverse := by
    apply dropWhile_eq_self_of_head
    intro c hc
    rw [List.head?_reverse] at hc
    have hBne : B ≠ [] := by
      intro hn
      rw [hn] at hc
      simp at hc
    rw [hB, getLast?_dropWhile _ _ (hB ▸ hBne), List.getLast?_reverse] at hc
    have hAne : A ≠ [] := by
      intro hn
      rw [hn] at hc
      simp at hc
    exact head?_dropWhile_not isPySpace l (hA ▸ hc)
  rw [h1, List.reverse_reverse, hB, dropWhile_self]

theorem pyStrip_idem (s : String) : pyStrip (pyStrip s) = pyStrip s := by
  simp [pyStrip, pyStripList_idem]

/-!
Entry-map lemmas.
-/

theorem keyMem_dictInsert_iff (m : EntryMap) (k v k2 : String) :
    keyMem k2 (dictInsert m k v) = true ↔ (k2 = k ∨ keyMem k2 m = true) := by
  unfold dictInsert
  by_cases h : keyMem k m = true
  · rw [if_pos h]
    simp only [keyMem, List.any_eq_true, decide_eq_true_eq, List.mem_map] at h ⊢
    constructor
    · rintro ⟨q, ⟨p, hp, hfp⟩, hq⟩
      by_cases hc : p.1 = k
      · left
        rw [← hq, ← hfp]
        simp [hc]
      · right
        refine ⟨p, hp, ?_⟩
        rw [← hq, ← hfp]
        simp [hc]
    · rintro (rfl | ⟨p, hp, hpk⟩)
      · obtain ⟨p, hp, hpk⟩ := h
        exact ⟨(k2, v), ⟨p, hp, by simp [hpk]⟩, rfl⟩
      · by_cases hc : p.1 = k
        · exact ⟨(k, v), ⟨p, hp, by simp [hc]⟩, by rw [← hpk, hc]⟩
        · exact ⟨p, ⟨p, hp, by simp [hc]⟩, hpk⟩
  · rw [if_neg h]
    simp only [keyMem, List.any_append, List.any_eq_true, decide_eq_true_eq,
      Bool.or_eq_true, List.any_cons, List.any_nil, Bool.or_false]
    constructor
    · rintro (hm | hk)
      · exact Or.inr hm
      · exact Or.inl hk.symm
    · rintro (rfl | hm)
      · exact Or.inr rfl
      · exact Or.inl hm

theorem lookupKey_none_iff (k : String) (m : EntryMap) :
    lookupKey k m = none ↔ keyMem k m = false := by
  induction m with
  | nil => simp [lookupKey, keyMem]
  | cons p rest ih =>
    unfold lookupKey
    by_cases h : p.1 = k
    · simp [h, keyMem]
    · simp only [h, if_false]
      rw [ih]
      simp [keyMem, h]

/-!
Claim C8: sentiment sampler output is clamped to the unit interval and
unknown levels use the medium parameters.
-/

/-- C8: for every sentiment level string and every value drawn from the
per-level normal distribution, the sampler output lies in [0, 1], and any
level other than low, medium or high selects the medium parameters
(mean 0.5, stddev 0.2). -/
theorem C8_sentiment_clamped (sentimentLevel : String) (gauss : ℚ × ℚ → ℚ) :
    (0 ≤ generateGaussianSentiment sentimentLevel gauss ∧
      generateGaussianSentiment sentimentLevel gauss ≤ 1) ∧
    (sentimentLevel ≠ "low" → sentimentLevel ≠ "medium" → sentimentLevel ≠ "high" →
      sentimentParams sentimentLevel = (5/10, 2/10)) := by
  refine ⟨⟨le_max_left 0 _, ?_⟩, ?_⟩
  · exact max_le (by norm_num) (min_le_left _ _)
  · intro h1 h2 h3
    simp [sentimentParams, h1, h2, h3]

/-- Witness for C8 at a concrete level and draw. -/
theorem C8_sentiment_clamped_witness :
    (0 ≤ generateGaussianSentiment "unknown" (fun p => p.1 + 7) ∧
      generateGaussianSentiment "unknown" (fun p => p.1 + 7) ≤ 1) ∧
    sentimentParams "unknown" = (5/10, 2/10) :=
  ⟨(C8_sentiment_clamped "unknown" (fun p => p.1 + 7)).1,
    (C8_sentiment_clamped "unknown" (fun p => p.1 + 7)).2
      (by decide) (by decide) (by decide)⟩

/-!
Claim C5: scale answers stay inside [low, high] and the 1..5 scale at
score 0.9 draws from the top band.
-/

/-- The scale band that `getValuesBasedOnSentiment` shuffles, as a
standalone helper (definitionally the body of the source function). -/
def scaleBandOf (low high : Int) (score : ℚ) : List Int :=
  let scaleRange := (List.range (high + 1 - low).toNat).map (fun i => low + Int.ofNat i)
  let numValues := scaleRange.length
  let lowCutoff := max 1 (numValues / 3)
  let mediumCutoff := 2 * numValues / 3
  if score < mkRat 33 100 then scaleRange.take mediumCutoff
  else if score < mkRat 66 100 then pySlice scaleRange lowCutoff (mediumCutoff + 1)
  else scaleRange.drop mediumCutoff

theorem getValues_eq (low high : Int) (score : ℚ) (s : RandS) :
    getValuesBasedOnSentiment low high score s =
      if low > high then .error .valueError
      else .ok (shuffleSel (scaleBandOf low high score) s) := rfl

theorem getValues_ok_cases {low high : Int} {score : ℚ} {s : RandS}
    {vals : List Int} {s1 : RandS}
    (h : getValuesBasedOnSentiment low high score s = .ok (vals, s1)) :
    low ≤ high ∧ vals.Perm (scaleBandOf low high score) := by
  rw [getValues_eq] at h
  by_cases hlh : low > high
  · rw [if_pos hlh] at h
    cases h
  · rw [if_neg hlh] at h
    simp only [Except.ok.injEq, Prod.ext_iff] at h
    exact ⟨not_lt.mp hlh, h.1 ▸ shuffleSel_perm _ _⟩

theorem scaleRange_mem {low high v : Int}
    (hv : v ∈ (List.range (high + 1 - low).toNat).map (fun i => low + Int.ofNat i)) :
    low ≤ v ∧ v ≤ high := by
  simp only [List.mem_map, List.mem_range] at hv
  obtain ⟨i, hi, hiv⟩ := hv
  have hcast : (Int.ofNat i) < ((high + 1 - low).toNat : Int) := Int.ofNat_lt.mpr hi
  have hofnat : (Int.ofNat i) = ((i : Nat) : Int) := rfl
  rw [hofnat] at hcast hiv
  rcases le_or_lt low high with hlh | hlh
  · have : ((high + 1 - low).toNat : Int) = high + 1 - low := by
      rw [Int.toNat_of_nonneg (by omega)]
    omega
  · have : (high + 1 - low).toNat = 0 := by
      apply Int.toNat_of_nonpos
      omega
    omega

theorem scaleBandOf_subset {low high : Int} {score : ℚ} {v : Int}
    (hv : v ∈ scaleBandOf low high score) :
    v ∈ (List.range (high + 1 - low).toNat).map (fun i => low + Int.ofNat i) := by
  unfold scaleBandOf at hv
  simp only at hv
  split at hv
  · exact List.take_subset _ _ hv
  · split at hv
    · exact List.drop_subset _ _ (List.take_subset _ _ hv)
    · exact List.drop_subset _ _ hv

/-- C5: whenever the scale strategy produces an answer, it is the string
form of an integer between the scale bounds (never outside them); on the
1..5 scale with score 0.9 the integer is drawn from the band 4..5. -/
theorem C5_scale_in_range (q : Item) (qi : QuestionItem) (sq : ScaleQuestion)
    (t : String) (score : ℚ) (s : RandS) (r : AnswerRecord) (s1 : RandS)
    (hqi : q.questionItem = some qi) (ht : q.title = some t)
    (hsq : qi.question.scaleQuestion = some sq)
    (h : scaleGenerate q score s = .ok (r, s1)) :
    ∃ v : Int, r.answers = [toString v] ∧ sq.low ≤ v ∧ v ≤ sq.high ∧
      (sq.low = 1 → sq.high = 5 → score = mkRat 9 10 → (v = 4 ∨ v = 5)) := by
  have heq : scaleGenerate q score s =
      (match getValuesBasedOnSentiment sq.low sq.high score s with
       | .error e => .error e
       | .ok (possibleValues, sa) =>
         match randChoice possibleValues sa with
         | .error e => .error e
         | .ok (v, sb) =>
           .ok (⟨"<TO ADD>", qi.question.questionId, t, [toString v]⟩, sb)) := by
    unfold scaleGenerate
    rw [hqi, ht]
    simp only []
    rw [hsq]
  rw [heq] at h
  cases hgv : getValuesBasedOnSentiment sq.low sq.high score s with
  | error e => rw [hgv] at h; cases h
  | ok p =>
    obtain ⟨vals, s2⟩ := p
    rw [hgv] at h
    simp only at h
    cases hrc : randChoice vals s2 with
    | error e => rw [hrc] at h; cases h
    | ok p2 =>
      obtain ⟨v, s3⟩ := p2
      rw [hrc] at h
      simp only [Except.ok.injEq, Prod.mk.injEq] at h
      obtain ⟨hr, _⟩ := h
      have hvmem : v ∈ vals := randChoice_ok_mem hrc
      obtain ⟨hlh, hperm⟩ := getValues_ok_cases hgv
      have hband := hperm.mem_iff.mp hvmem
      have hrange := scaleRange_mem (scaleBandOf_subset hband)
      refine ⟨v, by rw [← hr], hrange.1, hrange.2, ?_⟩
      intro h1 h5 h9
      rw [h1, h5, h9] at hband
      have e1 : scaleBandOf 1 5 (mkRat 9 10) = [4, 5] := by decide
      rw [e1] at hband
      simpa using hband

/-- Witness for C5 on the 1..5 scale at score 0.9. -/
theorem C5_scale_in_range_witness :
    ∃ v : Int,
      (⟨"<TO ADD>", "qs", "Rate", ["5"]⟩ : AnswerRecord).answers = [toString v] ∧
        (1 : Int) ≤ v ∧ v ≤ 5 ∧ ((1 : Int) = 1 → (5 : Int) = 5 →
          mkRat 9 10 = mkRat 9 10 → (v = 4 ∨ v = 5)) :=
  C5_scale_in_range
    ⟨some "Rate", some ⟨⟨"qs", false, none, some ⟨1, 5⟩⟩⟩, none⟩
    ⟨⟨"qs", false, none, some ⟨1, 5⟩⟩⟩ ⟨1, 5⟩ "Rate" (mkRat 9 10) [1, 0]
    ⟨"<TO ADD>", "qs", "Rate", ["5"]⟩ [] rfl rfl rfl (by decide)

/-!
Shape lemma for the choice strategy, used by several claims.
-/

theorem choiceGenerate_eq (cfg : Config) (q : Item) (score : ℚ) (s : RandS)
    (qi : QuestionItem) (t : String) (cq : ChoiceQuestion)
    (hqi : q.questionItem = some qi) (ht : q.title = some t)
    (hcq : qi.question.choiceQuestion = some cq) :
    choiceGenerate cfg q score s =
      (let choiceValues := filteredChoiceValues cfg cq.options
       let questionType := cq.type.getD ""
       if questionType = "CHECKBOX" then
         let minChoices := min 2 choiceValues.length
         let maxChoices := max minChoices (3 * choiceValues.length / 5)
         let (numChoices, s1) := randintTot minChoices maxChoices s
         match sampleSel choiceValues numChoices s1 with
         | .error e => .error e
         | .ok (answers, s2) =>
           .ok (⟨"<TO ADD>", qi.question.questionId, t, answers⟩, s2)
       else
         let possibleChoices :=
           if sentimentFlagged cfg t then
             let band := getChoicesBasedOnSentiment choiceValues score
             if band = [] then choiceValues else band
           else choiceValues
         match randChoice possibleChoices s with
         | .error e => .error e
         | .ok (a, s1) =>
           .ok (⟨"<TO ADD>", qi.question.questionId, t, [a]⟩, s1)) := by
  unfold choiceGenerate
  rw [hqi, ht]
  simp only []
  rw [hcq]

/-!
Claim C10: a single-select choice question whose options are all filtered
away raises IndexError, which the per-question handler does not catch, so
the whole gathering pass aborts.
-/

/-- C10: with an empty filtered option list and a non-CHECKBOX type, the
choice strategy raises IndexError (not ValueError), and the gathering
loop over the schema aborts with that IndexError instead of skipping the
question. -/
theorem C10_empty_choices_abort (cfg : Config) (gen : String → String)
    (q : Item) (qi : QuestionItem) (cq : ChoiceQuestion) (t : String)
    (score : ℚ) (s : RandS) (rest : List Item)
    (hqi : q.questionItem = some qi) (ht : q.title = some t)
    (hcq : qi.question.choiceQuestion = some cq)
    (htype : cq.type.getD "" ≠ "CHECKBOX")
    (htext : qi.question.textQuestion = false)
    (hgroup : q.questionGroupItem = none)
    (hempty : filteredChoiceValues cfg cq.options = []) :
    choiceGenerate cfg q score s = .error .indexError ∧
      gatherAnswers cfg gen (q :: rest) score s = .error .indexError := by
  have hchoice : choiceGenerate cfg q score s = .error .indexError := by
    rw [choiceGenerate_eq cfg q score s qi t cq hqi ht hcq]
    simp only [hempty]
    rw [if_neg htype]
    have hposs :
        (if sentimentFlagged cfg t then
          let band := getChoicesBasedOnSentiment ([] : List String) score
          if band = [] then ([] : List String) else band
        else ([] : List String)) = [] := by
      by_cases hf : sentimentFlagged cfg t
      · simp [hf, getChoicesBasedOnSentiment]
      · simp [hf]
    rw [hposs]
    rfl
  refine ⟨hchoice, ?_⟩
  have hstrat : getStrategy q = .ok .choice := by
    unfold getStrategy
    rw [hqi]
    simp [htext, hcq]
  have happ : generateAnswerApp cfg gen q score s = .error .indexError := by
    unfold generateAnswerApp
    rw [hstrat]
    simp only [runStrategy]
    rw [hchoice]
  rw [gatherAnswers]
  rw [hgroup]
  simp only [Option.isSome_none, Bool.false_eq_true, if_false, hqi,
    Option.isSome_some, if_true]
  rw [happ]

/-- Witness for C10: one choice question whose only option is a skip
word. -/
theorem C10_empty_choices_abort_witness :
    choiceGenerate ⟨["skip"], [], [], ""⟩
        ⟨some "Pick", some ⟨⟨"qc", false, some ⟨some "RADIO", [⟨some "skip"⟩]⟩, none⟩⟩, none⟩
        (mkRat 1 2) [] = .error .indexError ∧
      gatherAnswers ⟨["skip"], [], [], ""⟩ (fun _ => "")
        [⟨some "Pick", some ⟨⟨"qc", false, some ⟨some "RADIO", [⟨some "skip"⟩]⟩, none⟩⟩, none⟩]
        (mkRat 1 2) [] = .error .indexError :=
  C10_empty_choices_abort ⟨["skip"], [], [], ""⟩ (fun _ => "")
    ⟨some "Pick", some ⟨⟨"qc", false, some ⟨some "RADIO", [⟨some "skip"⟩]⟩, none⟩⟩, none⟩
    ⟨⟨"qc", false, some ⟨some "RADIO", [⟨some "skip"⟩]⟩, none⟩⟩
    ⟨some "RADIO", [⟨some "skip"⟩]⟩ "Pick" (mkRat 1 2) [] []
    rfl rfl rfl (by decide) rfl rfl (by decide)

/-!
Claim C7: questions matching none of the four supported variants.
-/

/-- A question shape matching none of the four supported variants: no
text/choice/scale sub-kind and no grouped shape. -/
def noneOfFourB (q : Item) : Bool :=
  (match q.questionItem with
   | none => true
   | some qi =>
     !qi.question.textQuestion && qi.question.choiceQuestion.isNone &&
       qi.question.scaleQuestion.isNone) &&
  q.questionGroupItem.isNone

/-- C7: for every question of unsupported shape, the factory fails with
the unknown-question-type ValueError; and in the gathering loop such a
question (reached through its `questionItem` key) contributes no answer
records while processing continues unchanged on the remaining
questions. -/
theorem C7_unknown_question_type :
    (∀ q : Item, noneOfFourB q = true → getStrategy q = .error .valueError) ∧
    (∀ (cfg : Config) (gen : String → String) (q : Item) (rest : List Item)
        (score : ℚ) (s : RandS),
      noneOfFourB q = true → q.questionItem.isSome = true →
        gatherAnswers cfg gen (q :: rest) score s =
          gatherAnswers cfg gen rest score s) := by
  have hfac : ∀ q : Item, noneOfFourB q = true → getStrategy q = .error .valueError := by
    intro q hq
    unfold noneOfFourB at hq
    simp only [Bool.and_eq_true] at hq
    obtain ⟨hqi, hgroup⟩ := hq
    unfold getStrategy
    cases hqim : q.questionItem with
    | none =>
      simp only [hqim] at hqi ⊢
      simp [Option.isNone_iff_eq_none.mp hgroup]
    | some qi =>
      rw [hqim] at hqi
      simp only [Bool.and_eq_true, Bool.not_eq_true'] at hqi
      obtain ⟨⟨htext, hcq⟩, hsq⟩ := hqi
      simp only [htext, Bool.false_eq_true, if_false,
        Option.isNone_iff_eq_none.mp hcq, Option.isNone_iff_eq_none.mp hsq,
        Option.isSome_none, Option.isNone_iff_eq_none.mp hgroup]
  refine ⟨hfac, ?_⟩
  intro cfg gen q rest score s hq hqi
  have hgroup : q.questionGroupItem = none := by
    unfold noneOfFourB at hq
    simp only [Bool.and_eq_true] at hq
    exact Option.isNone_iff_eq_none.mp hq.2
  have happ : generateAnswerApp cfg gen q score s = .ok (.noneRes, s) := by
    unfold generateAnswerApp
    rw [hfac q hq]
  rw [gatherAnswers]
  rw [hgroup]
  simp only [Option.isSome_none, Bool.false_eq_true, if_false, hqi, if_true]
  rw [happ]
  simp only [appendEntry]
  cases hrest : gatherAnswers cfg gen rest score s with
  | error e => rfl
  | ok p => cases p with | mk tail s2 => simp

/-- Witness for C7 on a question carrying an empty `questionItem`. -/
theorem C7_unknown_question_type_witness :
    getStrategy ⟨some "T", some ⟨⟨"qx", false, none, none⟩⟩, none⟩ =
        .error .valueError ∧
      gatherAnswers ⟨[], [], [], ""⟩ (fun _ => "")
          [⟨some "T", some ⟨⟨"qx", false, none, none⟩⟩, none⟩] (mkRat 1 2) [2] =
        gatherAnswers ⟨[], [], [], ""⟩ (fun _ => "") [] (mkRat 1 2) [2] :=
  ⟨C7_unknown_question_type.1 ⟨some "T", some ⟨⟨"qx", false, none, none⟩⟩, none⟩
      (by decide),
    C7_unknown_question_type.2 ⟨[], [], [], ""⟩ (fun _ => "")
      ⟨some "T", some ⟨⟨"qx", false, none, none⟩⟩, none⟩ [] (mkRat 1 2) [2]
      (by decide) (by decide)⟩

/-!
Claim C1: single-select sentiment banding.  The claim puts the medium
band at [n//3, 2n/3); the code uses max(2, n//3) as the lower cutoff.
-/

/-- The three overlapping bands exactly as claim C1 states them: low is
the first two thirds, medium the middle third cut at `n//3` and `2n/3`,
high the last third. -/
def specC1Band (choiceValues : List String) (score : ℚ) : List String :=
  let n := choiceValues.length
  if score < mkRat 33 100 then choiceValues.take (2 * n / 3)
  else if score < mkRat 66 100 then pySlice choiceValues (n / 3) (2 * n / 3)
  else choiceValues.drop (2 * n / 3)

/-- The bands with the cutoff the code actually uses: the medium band
starts at `max(2, n//3)` instead of `n//3`. -/
def specC1BandAmended (choiceValues : List String) (score : ℚ) : List String :=
  let n := choiceValues.length
  if score < mkRat 33 100 then choiceValues.take (2 * n / 3)
  else if score < mkRat 66 100 then pySlice choiceValues (max 2 (n / 3)) (2 * n / 3)
  else choiceValues.drop (2 * n / 3)

/-- The code band equals the amended band on every input. -/
theorem getChoicesBasedOnSentiment_eq_amended (l : List String) (score : ℚ) :
    getChoicesBasedOnSentiment l score = specC1BandAmended l score := by
  unfold getChoicesBasedOnSentiment specC1BandAmended
  by_cases hn : l.length = 0
  · have hl : l = [] := List.length_eq_zero.mp hn
    subst hl
    simp [pySlice]
  · simp [hn]

/-- C1 counterexample: three options at score 0.5 on a sentiment-flagged
question.  The claim's medium band is the middle third ["b"], which is
non-empty, yet the code's answer is "a": the code's medium cutoff
max(2, n//3) makes its band empty, triggering the full-list fallback. -/
theorem C1_counterexample :
    choiceGenerate ⟨[], [], ["rate"], ""⟩
        ⟨some "rate",
          some ⟨⟨"qc", false,
            some ⟨some "RADIO", [⟨some "a"⟩, ⟨some "b"⟩, ⟨some "c"⟩]⟩, none⟩⟩,
          none⟩
        (mkRat 1 2) [0] =
      .ok (⟨"<TO ADD>", "qc", "rate", ["a"]⟩, []) ∧
    specC1Band ["a", "b", "c"] (mkRat 1 2) = ["b"] ∧
    "a" ∉ specC1Band ["a", "b", "c"] (mkRat 1 2) := by
  refine ⟨by decide, by decide, by decide⟩

/-- C1 amended: for a sentiment-flagged single-select question the
answer is one value drawn from the band with cutoffs max(2, n//3) and
2n/3 (low band = first two thirds, high band = last third as claimed),
falling back to the full filtered list when that band is empty. -/
theorem C1_sentiment_choice_amended (cfg : Config) (q : Item) (score : ℚ)
    (s : RandS) (qi : QuestionItem) (t : String) (cq : ChoiceQuestion)
    (r : AnswerRecord) (s1 : RandS)
    (hqi : q.questionItem = some qi) (ht : q.title = some t)
    (hcq : qi.question.choiceQuestion = some cq)
    (htype : cq.type.getD "" ≠ "CHECKBOX")
    (hflag : sentimentFlagged cfg t = true)
    (h : choiceGenerate cfg q score s = .ok (r, s1)) :
    r.question_title = t ∧
      ∃ v, r.answers = [v] ∧
        v ∈ (let band := specC1BandAmended (filteredChoiceValues cfg cq.options) score
             if band = [] then filteredChoiceValues cfg cq.options else band) := by
  rw [choiceGenerate_eq cfg q score s qi t cq hqi ht hcq] at h
  simp only [if_neg htype, hflag, if_true] at h
  rw [getChoicesBasedOnSentiment_eq_amended] at h
  cases hrc : randChoice
      (let band := specC1BandAmended (filteredChoiceValues cfg cq.options) score
       if band = [] then filteredChoiceValues cfg cq.options else band) s with
  | error e => rw [hrc] at h; cases h
  | ok p =>
    obtain ⟨a, s2⟩ := p
    rw [hrc] at h
    simp only [Except.ok.injEq, Prod.mk.injEq] at h
    obtain ⟨hr, _⟩ := h
    exact ⟨by rw [← hr], a, by rw [← hr], randChoice_ok_mem hrc⟩

/-- Witness for the amended C1 on a flagged three-option question. -/
theorem C1_sentiment_choice_amended_witness :
    (⟨"<TO ADD>", "qc", "rate", ["a"]⟩ : AnswerRecord).question_title = "rate" ∧
      ∃ v, (⟨"<TO ADD>", "qc", "rate", ["a"]⟩ : AnswerRecord).answers = [v] ∧
        v ∈ (let band := specC1BandAmended
               (filteredChoiceValues ⟨[], [], ["rate"], ""⟩
                 [⟨some "a"⟩, ⟨some "b"⟩, ⟨some "c"⟩]) (mkRat 1 2)
             if band = [] then
               filteredChoiceValues ⟨[], [], ["rate"], ""⟩
                 [⟨some "a"⟩, ⟨some "b"⟩, ⟨some "c"⟩]
             else band) :=
  C1_sentiment_choice_amended ⟨[], [], ["rate"], ""⟩
    ⟨some "rate",
      some ⟨⟨"qc", false,
        some ⟨some "RADIO", [⟨some "a"⟩, ⟨some "b"⟩, ⟨some "c"⟩]⟩, none⟩⟩,
      none⟩
    (mkRat 1 2) [0]
    ⟨⟨"qc", false, some ⟨some "RADIO", [⟨some "a"⟩, ⟨some "b"⟩, ⟨some "c"⟩]⟩, none⟩⟩
    "rate" ⟨some "RADIO", [⟨some "a"⟩, ⟨some "b"⟩, ⟨some "c"⟩]⟩
    ⟨"<TO ADD>", "qc", "rate", ["a"]⟩ []
    rfl rfl rfl (by decide) (by decide) (by decide)

/-!
Claim C3: CHECKBOX selection count and distinctness.  `random.sample`
draws distinct positions, so the selected values are pairwise distinct
only when the filtered option values themselves are.
-/

/-- C3 counterexample: a CHECKBOX question whose two options carry the
same value "yes".  The code selects both positions, so the answer list is
["yes", "yes"], whose elements are not pairwise distinct. -/
theorem C3_counterexample :
    choiceGenerate ⟨[], [], [], ""⟩
        ⟨some "Pick", some ⟨⟨"qk", false,
          some ⟨some "CHECKBOX", [⟨some "yes"⟩, ⟨some "yes"⟩]⟩, none⟩⟩, none⟩
        (mkRat 1 2) [0, 0, 0] =
      .ok (⟨"<TO ADD>", "qk", "Pick", ["yes", "yes"]⟩, []) ∧
    ¬ (["yes", "yes"] : List String).Nodup :=
  ⟨by decide, by decide⟩

/-- C3 amended: for a CHECKBOX question the answer count lies between
min(2, n) and max(min(2, n), floor(0.6 n)) and the answers form a
sub-permutation of the filtered option list (distinct positions, hence
pairwise distinct values whenever the filtered values are distinct). -/
theorem C3_checkbox_amended (cfg : Config) (q : Item) (score : ℚ) (s : RandS)
    (qi : QuestionItem) (t : String) (cq : ChoiceQuestion)
    (r : AnswerRecord) (s1 : RandS)
    (hqi : q.questionItem = some qi) (ht : q.title = some t)
    (hcq : qi.question.choiceQuestion = some cq)
    (htype : cq.type.getD "" = "CHECKBOX")
    (h : choiceGenerate cfg q score s = .ok (r, s1)) :
    (min 2 (filteredChoiceValues cfg cq.options).length ≤ r.answers.length ∧
      r.answers.length ≤
        max (min 2 (filteredChoiceValues cfg cq.options).length)
          (3 * (filteredChoiceValues cfg cq.options).length / 5)) ∧
    r.answers.Subperm (filteredChoiceValues cfg cq.options) ∧
    ((filteredChoiceValues cfg cq.options).Nodup → r.answers.Nodup) := by
  rw [choiceGenerate_eq cfg q score s qi t cq hqi ht hcq] at h
  simp only [htype, if_true] at h
  cases hrt : randintTot (min 2 (filteredChoiceValues cfg cq.options).length)
      (max (min 2 (filteredChoiceValues cfg cq.options).length)
        (3 * (filteredChoiceValues cfg cq.options).length / 5)) s with
  | mk numChoices sa =>
    rw [hrt] at h
    simp only at h
    cases hsm : sampleSel (filteredChoiceValues cfg cq.options) numChoices sa with
    | error e => rw [hsm] at h; cases h
    | ok p =>
      obtain ⟨answers, sb⟩ := p
      rw [hsm] at h
      simp only [Except.ok.injEq, Prod.mk.injEq] at h
      obtain ⟨hr, _⟩ := h
      obtain ⟨hlen, hsub⟩ := sampleSel_ok _ _ _ _ _ hsm
      have hbounds := randintTot_bounds
        (le_max_left (min 2 (filteredChoiceValues cfg cq.options).length)
          (3 * (filteredChoiceValues cfg cq.options).length / 5)) s
      rw [hrt] at hbounds
      simp only at hbounds
      rw [← hr]
      refine ⟨⟨?_, ?_⟩, hsub, ?_⟩
      · simp only [hlen]
        exact hbounds.1
      · simp only [hlen]
        exact hbounds.2
      · intro hnd
        obtain ⟨l2, hperm, hsl⟩ := hsub
        exact hperm.nodup_iff.mp (hnd.sublist hsl)

/-- Witness for the amended C3 on a three-option CHECKBOX question. -/
theorem C3_checkbox_amended_witness :
    (min 2 (filteredChoiceValues ⟨[], [], [], ""⟩
        [⟨some "a"⟩, ⟨some "b"⟩, ⟨some "c"⟩]).length ≤
      (⟨"<TO ADD>", "qk", "Pick", ["a", "b"]⟩ : AnswerRecord).answers.length ∧
      (⟨"<TO ADD>", "qk", "Pick", ["a", "b"]⟩ : AnswerRecord).answers.length ≤
        max (min 2 (filteredChoiceValues ⟨[], [], [], ""⟩
            [⟨some "a"⟩, ⟨some "b"⟩, ⟨some "c"⟩]).length)
          (3 * (filteredChoiceValues ⟨[], [], [], ""⟩
            [⟨some "a"⟩, ⟨some "b"⟩, ⟨some "c"⟩]).length / 5)) ∧
    (⟨"<TO ADD>", "qk", "Pick", ["a", "b"]⟩ : AnswerRecord).answers.Subperm
      (filteredChoiceValues ⟨[], [], [], ""⟩ [⟨some "a"⟩, ⟨some "b"⟩, ⟨some "c"⟩]) ∧
    ((filteredChoiceValues ⟨[], [], [], ""⟩
        [⟨some "a"⟩, ⟨some "b"⟩, ⟨some "c"⟩]).Nodup →
      (⟨"<TO ADD>", "qk", "Pick", ["a", "b"]⟩ : AnswerRecord).answers.Nodup) :=
  C3_checkbox_amended ⟨[], [], [], ""⟩
    ⟨some "Pick", some ⟨⟨"qk", false,
      some ⟨some "CHECKBOX", [⟨some "a"⟩, ⟨some "b"⟩, ⟨some "c"⟩]⟩, none⟩⟩, none⟩
    (mkRat 1 2) [0, 0, 0]
    ⟨⟨"qk", false, some ⟨some "CHECKBOX", [⟨some "a"⟩, ⟨some "b"⟩, ⟨some "c"⟩]⟩, none⟩⟩
    "Pick" ⟨some "CHECKBOX", [⟨some "a"⟩, ⟨some "b"⟩, ⟨some "c"⟩]⟩
    ⟨"<TO ADD>", "qk", "Pick", ["a", "b"]⟩ []
    rfl rfl rfl (by decide) (by decide)

/-!
Claim C4: matrix banding.  The claim cuts at n//3 and 2n/3; the code's
lower cutoff is max(1, n//3).
-/

/-- The non-overlapping matrix bands exactly as claim C4 states them,
cut at `n//3` and `2n/3`. -/
def specC4Band (choiceValues : List String) (score : ℚ) : List String :=
  let n := choiceValues.length
  if score < mkRat 33 100 then choiceValues.take (n / 3)
  else if score < mkRat 66 100 then pySlice choiceValues (n / 3) (2 * n / 3)
  else choiceValues.drop (2 * n / 3)

/-- The matrix bands with the cutoffs the code actually uses:
`max(1, n//3)` and `2n/3`. -/
def specC4BandAmended (choiceValues : List String) (score : ℚ) : List String :=
  let numChoices := choiceValues.length
  let lowCutoff := max 1 (numChoices / 3)
  let mediumCutoff := 2 * numChoices / 3
  if score < mkRat 33 100 then choiceValues.take lowCutoff
  else if score < mkRat 66 100 then pySlice choiceValues lowCutoff mediumCutoff
  else choiceValues.drop mediumCutoff

theorem getMatrixChoice_ok_mem {l : List String} {score : ℚ} {s : RandS}
    {v : String} {s1 : RandS}
    (h : getMatrixChoiceBasedOnSentiment l score s = .ok (v, s1)) :
    v ∈ (let band := specC4BandAmended l score
         if band = [] then l else band) := by
  unfold getMatrixChoiceBasedOnSentiment at h
  by_cases hn : l.length = 0
  · rw [if_pos hn] at h
    cases h
  · rw [if_neg hn] at h
    simp only [] at h
    have hb :
        (if score < mkRat 33 100 then l.take (max 1 (l.length / 3))
         else if score < mkRat 66 100 then
           pySlice l (max 1 (l.length / 3)) (2 * l.length / 3)
         else l.drop (2 * l.length / 3)) = specC4BandAmended l score := rfl
    rw [hb] at h
    by_cases hband : specC4BandAmended l score = []
    · rw [if_pos hband] at h
      simp only [hband, if_pos rfl]
      exact randChoice_ok_mem h
    · rw [if_neg hband] at h
      simp only [hband, if_neg hband]
      exact randChoice_ok_mem h

theorem matrixRowsLoop_forall (choiceValues : List String) (score : ℚ) :
    ∀ (rows : List GroupRow) (s : RandS) (recs : List AnswerRecord) (s1 : RandS),
      matrixRowsLoop choiceValues score rows s = .ok (recs, s1) →
      List.Forall₂
        (fun (row : GroupRow) (r : AnswerRecord) =>
          r.questionId = row.questionId ∧
          r.question_title = row.rowQuestion.title ∧
          ∃ v, r.answers = [v] ∧
            v ∈ (let band := specC4BandAmended choiceValues score
                 if band = [] then choiceValues else band))
        rows recs := by
  intro rows
  induction rows with
  | nil =>
    intro s recs s1 h
    simp only [matrixRowsLoop, Except.ok.injEq, Prod.mk.injEq] at h
    rw [← h.1]
    exact List.Forall₂.nil
  | cons row rest ih =>
    intro s recs s1 h
    rw [matrixRowsLoop] at h
    cases hc : getMatrixChoiceBasedOnSentiment choiceValues score s with
    | error e => rw [hc] at h; cases h
    | ok p =>
      obtain ⟨chosen, sa⟩ := p
      rw [hc] at h
      simp only at h
      cases hloop : matrixRowsLoop choiceValues score rest sa with
      | error e => rw [hloop] at h; cases h
      | ok p2 =>
        obtain ⟨tail, sb⟩ := p2
        rw [hloop] at h
        simp only [Except.ok.injEq, Prod.mk.injEq] at h
        rw [← h.1]
        exact List.Forall₂.cons
          ⟨rfl, rfl, chosen, rfl, getMatrixChoice_ok_mem hc⟩
          (ih sa tail sb hloop)

/-- C4 counterexample: a one-row grid with columns [A, B] at score 0.5.
The claim's medium band is indices [0, 1) = ["A"] (non-empty), yet the
code's band [max(1, 0), 1) is empty, so it falls back to the full column
list and can answer "B". -/
theorem C4_counterexample :
    matrixGenerate
        ⟨none, none, some ⟨[⟨"r1", ⟨"Row1"⟩⟩], [⟨some "A"⟩, ⟨some "B"⟩]⟩⟩
        (mkRat 1 2) [1] =
      .ok ([⟨"<TO ADD>", "r1", "Row1", ["B"]⟩], []) ∧
    specC4Band ["A", "B"] (mkRat 1 2) = ["A"] ∧
    "B" ∉ specC4Band ["A", "B"] (mkRat 1 2) :=
  ⟨by decide, by decide, by decide⟩

/-- C4 amended: for a grid with non-empty rows and columns, one record is
emitted per row carrying the row's own identifier and title and a single
value drawn from the non-overlapping band cut at max(1, n//3) and 2n/3,
falling back to the full column list when that band is empty. -/
theorem C4_matrix_amended (q : Item) (g : GroupItem) (score : ℚ) (s : RandS)
    (recs : List AnswerRecord) (s1 : RandS) (choiceValues : List String)
    (hg : q.questionGroupItem = some g)
    (hcols : g.columnOptions.mapM OptionItem.value = some choiceValues)
    (h : matrixGenerate q score s = .ok (recs, s1)) :
    List.Forall₂
      (fun (row : GroupRow) (r : AnswerRecord) =>
        r.questionId = row.questionId ∧
        r.question_title = row.rowQuestion.title ∧
        ∃ v, r.answers = [v] ∧
          v ∈ (let band := specC4BandAmended choiceValues score
               if band = [] then choiceValues else band))
      g.questions recs := by
  unfold matrixGenerate at h
  rw [hg] at h
  simp only [Option.map_some', Option.getD_some] at h
  by_cases hguard : (decide (g.questions = []) || decide (g.columnOptions = [])) = true
  · rw [if_pos hguard] at h
    cases h
  · rw [if_neg hguard] at h
    rw [hcols] at h
    exact matrixRowsLoop_forall choiceValues score g.questions s recs s1 h

/-- Witness for the amended C4 on a one-row grid at score 0.1. -/
theorem C4_matrix_amended_witness :
    List.Forall₂
      (fun (row : GroupRow) (r : AnswerRecord) =>
        r.questionId = row.questionId ∧
        r.question_title = row.rowQuestion.title ∧
        ∃ v, r.answers = [v] ∧
          v ∈ (let band := specC4BandAmended ["A", "B", "C"] (mkRat 1 10)
               if band = [] then ["A", "B", "C"] else band))
      [⟨"r1", ⟨"Row1"⟩⟩] [⟨"<TO ADD>", "r1", "Row1", ["A"]⟩] :=
  C4_matrix_amended
    ⟨none, none, some ⟨[⟨"r1", ⟨"Row1"⟩⟩], [⟨some "A"⟩, ⟨some "B"⟩, ⟨some "C"⟩]⟩⟩
    ⟨[⟨"r1", ⟨"Row1"⟩⟩], [⟨some "A"⟩, ⟨some "B"⟩, ⟨some "C"⟩]⟩
    (mkRat 1 10) [0] [⟨"<TO ADD>", "r1", "Row1", ["A"]⟩] [] ["A", "B", "C"]
    rfl rfl (by decide)

/-!
Claim C9: text post-processing.  The claim says only a trailing period is
stripped and interior periods are preserved; the code removes every
period.
-/

/-- The text process exactly as claim C9 states it: strip one trailing
period (interior periods preserved), then the same split / shuffle /
select / case / join / trailing-punctuation steps. -/
def specC9Process (text : String) (s : RandS) : String × RandS :=
  let text1 :=
    if text.data.getLast? = some '.' then String.mk text.data.dropLast else text
  let words := (pySplitComma text1).filterMap
    (fun w => let w1 := pyStrip w; if w1 = "" then none else some w1)
  if words = [] then ("", s)
  else
    let (shuffled, s1) := shuffleSel words s
    let (numWords, s2) := randintTot 1 (min 4 words.length) s1
    let selected := shuffled.take numWords
    let (cased, s3) := selected.foldl
      (fun (acc : List String × RandS) w =>
        let (n, sNext) := drawNat acc.2
        (acc.1 ++ [if n % 2 = 0 then pyCapitalize w else pyLower w], sNext))
      ([], s2)
    (stripTrailingPunct (joinWith ", " cased), s3)

/-- C9 counterexample: on the word "a.b" (no trailing period) the
claimed process keeps the interior period and yields "A.b", but the code
removes every period and yields "Ab". -/
theorem C9_counterexample :
    processGeneratedAnswer "a.b" [0, 0, 0] = ("Ab", []) ∧
    specC9Process "a.b" [0, 0, 0] = ("A.b", []) ∧
    ("Ab" : String) ≠ "A.b" :=
  ⟨by decide, by decide, by decide⟩

theorem caseFoldAux :
    ∀ (ws : List String) (acc : List String) (s0 : RandS),
      ∃ cs sEnd,
        ws.foldl
          (fun (acc2 : List String × RandS) w =>
            let (n, sNext) := drawNat acc2.2
            (acc2.1 ++ [if n % 2 = 0 then pyCapitalize w else pyLower w], sNext))
          (acc, s0) = (acc ++ cs, sEnd) ∧
        cs.length = ws.length ∧
        ∀ w ∈ cs, ∃ w0 ∈ ws, w = pyCapitalize w0 ∨ w = pyLower w0 := by
  intro ws
  induction ws with
  | nil =>
    intro acc s0
    exact ⟨[], s0, by simp, rfl, by simp⟩
  | cons w rest ih =>
    intro acc s0
    cases hd : drawNat s0 with
    | mk n s1 =>
      obtain ⟨cs, sEnd, heq, hlen, hmem⟩ :=
        ih (acc ++ [if n % 2 = 0 then pyCapitalize w else pyLower w]) s1
      refine ⟨(if n % 2 = 0 then pyCapitalize w else pyLower w) :: cs, sEnd,
        ?_, by simp [hlen], ?_⟩
      · simp only [List.foldl_cons]
        rw [hd]
        simp only []
        rw [heq]
        simp [List.append_assoc]
      · intro w2 hw2
        rcases List.mem_cons.mp hw2 with hw2 | hw2
        · refine ⟨w, List.mem_cons_self _ _, ?_⟩
          rw [hw2]
          by_cases hn : n % 2 = 0
          · simp [hn]
          · simp [hn]
        · obtain ⟨w0, hw0, hcl⟩ := hmem w2 hw2
          exact ⟨w0, List.mem_cons_of_mem _ hw0, hcl⟩

/-- C9 amended: the post-processing removes every period (so interior
periods are not preserved), splits on commas into stripped nonempty
words, and — when any word remains — returns between 1 and
min(4, wordCount) kept words, each one a capitalized or lower-cased word
of that list, joined with a comma-space with one trailing punctuation
character stripped; with no words it returns the empty string. -/
theorem C9_text_postprocess_amended (text : String) (s : RandS) :
    (answerWords text = [] → processGeneratedAnswer text s = ("", s)) ∧
    (answerWords text ≠ [] →
      ∃ sel : List String, 1 ≤ sel.length ∧
        sel.length ≤ min 4 (answerWords text).length ∧
        (∀ w ∈ sel, ∃ w0 ∈ answerWords text,
          w = pyCapitalize w0 ∨ w = pyLower w0) ∧
        (processGeneratedAnswer text s).1 =
          stripTrailingPunct (joinWith ", " sel)) := by
  constructor
  · intro h
    simp [processGeneratedAnswer, h]
  · intro h
    rw [processGeneratedAnswer]
    simp only [if_neg h]
    cases hsh : shuffleSel (answerWords text) s with
    | mk shuffled s1 =>
      cases hrt : randintTot 1 (min 4 (answerWords text).length) s1 with
      | mk numWords s2 =>
        simp only []
        obtain ⟨cs, sEnd, heq, hlen, hmem⟩ :=
          caseFoldAux (shuffled.take numWords) [] s2
        rw [heq]
        simp only [List.nil_append]
        have hshlen : shuffled.length = (answerWords text).length := by
          have := shuffleSel_length (answerWords text) s
          rw [hsh] at this
          exact this
        have hwpos : 1 ≤ (answerWords text).length :=
          List.length_pos.mpr h
        have hminpos : 1 ≤ min 4 (answerWords text).length := by omega
        have hnum := randintTot_bounds hminpos s1
        rw [hrt] at hnum
        simp only at hnum
        have hcslen : cs.length = min numWords shuffled.length := by
          rw [hlen, List.length_take]
        refine ⟨cs, ?_, ?_, ?_, rfl⟩
        · omega
        · omega
        · intro w hw
          obtain ⟨w0, hw0, hcl⟩ := hmem w hw
          refine ⟨w0, ?_, hcl⟩
          have : w0 ∈ shuffled := List.take_subset _ _ hw0
          have hperm := shuffleSel_perm (answerWords text) s
          rw [hsh] at hperm
          exact hperm.mem_iff.mp this

/-- Witness for the amended C9 on a two-word input. -/
theorem C9_text_postprocess_amended_witness :
    answerWords "hi, there" ≠ [] ∧
      (∃ sel : List String, 1 ≤ sel.length ∧
        sel.length ≤ min 4 (answerWords "hi, there").length ∧
        (∀ w ∈ sel, ∃ w0 ∈ answerWords "hi, there",
          w = pyCapitalize w0 ∨ w = pyLower w0) ∧
        (processGeneratedAnswer "hi, there" [0, 0, 0]).1 =
          stripTrailingPunct (joinWith ", " sel)) :=
  ⟨by decide, (C9_text_postprocess_amended "hi, there" [0, 0, 0]).2 (by decide)⟩

/-!
Claim C2: entry-id resolution.  Helper lemmas about which titles the
strategies emit and which keys `gather_entry_data_init` collects.
-/

/-- The records contained in one strategy result. -/
def recordsOf : StratResult → List AnswerRecord
  | .noneRes => []
  | .emptyDict => []
  | .record r => [r]
  | .recs rs => rs

/-- Where an answer record's title can come from, given its question. -/
def titleFrom (q : Item) (r : AnswerRecord) : Prop :=
  (∃ t, q.title = some t ∧
    (r.question_title = t ∨ r.question_title = pyStrip t)) ∨
  (∃ g, q.questionGroupItem = some g ∧
    ∃ row ∈ g.questions, r.question_title = row.rowQuestion.title)

theorem choiceGenerate_title {cfg : Config} {q : Item} {score : ℚ} {s : RandS}
    {r : AnswerRecord} {s1 : RandS}
    (h : choiceGenerate cfg q score s = .ok (r, s1)) :
    ∃ t, q.title = some t ∧ r.question_title = t := by
  unfold choiceGenerate at h
  cases hqi : q.questionItem with
  | none => rw [hqi] at h; simp at h
  | some qi =>
    rw [hqi] at h
    simp only [] at h
    cases ht : q.title with
    | none => rw [ht] at h; simp at h
    | some t =>
      rw [ht] at h
      simp only [] at h
      cases hcq : qi.question.choiceQuestion with
      | none => rw [hcq] at h; simp at h
      | some cq =>
        rw [hcq] at h
        simp only [] at h
        refine ⟨t, rfl, ?_⟩
        split at h
        · split at h
          · cases h
          · simp only [Except.ok.injEq, Prod.mk.injEq] at h
            rw [← h.1]
        · split at h
          · cases h
          · simp only [Except.ok.injEq, Prod.mk.injEq] at h
            rw [← h.1]

theorem scaleGenerate_title {q : Item} {score : ℚ} {s : RandS}
    {r : AnswerRecord} {s1 : RandS}
    (h : scaleGenerate q score s = .ok (r, s1)) :
    ∃ t, q.title = some t ∧ r.question_title = t := by
  unfold scaleGenerate at h
  cases hqi : q.questionItem with
  | none => rw [hqi] at h; simp at h
  | some qi =>
    rw [hqi] at h
    simp only [] at h
    cases ht : q.title with
    | none => rw [ht] at h; simp at h
    | some t =>
      rw [ht] at h
      simp only [] at h
      cases hsq : qi.question.scaleQuestion with
      | none => rw [hsq] at h; simp at h
      | some sq =>
        rw [hsq] at h
        simp only [] at h
        refine ⟨t, rfl, ?_⟩
        split at h
        · cases h
        · split at h
          · cases h
          · simp only [Except.ok.injEq, Prod.mk.injEq] at h
            rw [← h.1]

theorem textGenerate_title {cfg : Config} {gen : String → String} {q : Item}
    {s : RandS} {res : StratResult} {s1 : RandS}
    (h : textGenerate cfg gen q s = .ok (res, s1)) :
    ∀ r ∈ recordsOf res, ∃ t, q.title = some t ∧ r.question_title = pyStrip t := by
  unfold textGenerate at h
  cases hqi : q.questionItem with
  | none => rw [hqi] at h; simp at h
  | some qi =>
    rw [hqi] at h
    simp only [] at h
    cases ht : q.title with
    | none => rw [ht] at h; simp at h
    | some t =>
      rw [ht] at h
      simp only [] at h
      split at h
      · simp only [Except.ok.injEq, Prod.mk.injEq] at h
        rw [← h.1]
        simp [recordsOf]
      · split at h
        · split at h
          · cases h
          · simp only [Except.ok.injEq, Prod.mk.injEq] at h
            rw [← h.1]
            intro r hr
            simp only [recordsOf, List.mem_singleton] at hr
            rw [hr]
            exact ⟨t, rfl, rfl⟩
        · simp only [Except.ok.injEq, Prod.mk.injEq] at h
          rw [← h.1]
          intro r hr
          simp only [recordsOf, List.mem_singleton] at hr
          rw [hr]
          exact ⟨t, rfl, rfl⟩

theorem matrixRowsLoop_titles (choiceValues : List String) (score : ℚ) :
    ∀ (rows : List GroupRow) (s : RandS) (recs : List AnswerRecord) (s1 : RandS),
      matrixRowsLoop choiceValues score rows s = .ok (recs, s1) →
      ∀ r ∈ recs, ∃ row ∈ rows, r.question_title = row.rowQuestion.title := by
  intro rows
  induction rows with
  | nil =>
    intro s recs s1 h
    simp only [matrixRowsLoop, Except.ok.injEq, Prod.mk.injEq] at h
    rw [← h.1]
    simp
  | cons row rest ih =>
    intro s recs s1 h
    rw [matrixRowsLoop] at h
    cases hc : getMatrixChoiceBasedOnSentiment choiceValues score s with
    | error e => rw [hc] at h; cases h
    | ok p =>
      obtain ⟨chosen, sa⟩ := p
      rw [hc] at h
      simp only at h
      cases hloop : matrixRowsLoop choiceValues score rest sa with
      | error e => rw [hloop] at h; cases h
      | ok p2 =>
        obtain ⟨tail, sb⟩ := p2
        rw [hloop] at h
        simp only [Except.ok.injEq, Prod.mk.injEq] at h
        rw [← h.1]
        intro r hr
        rcases List.mem_cons.mp hr with hr | hr
        · exact ⟨row, List.mem_cons_self _ _, by rw [hr]⟩
        · obtain ⟨row2, hrow2, htitle⟩ := ih sa tail sb hloop r hr
          exact ⟨row2, List.mem_cons_of_mem _ hrow2, htitle⟩

theorem matrixGenerate_titles {q : Item} {score : ℚ} {s : RandS}
    {recs : List AnswerRecord} {s1 : RandS}
    (h : matrixGenerate q score s = .ok (recs, s1)) :
    ∃ g, q.questionGroupItem = some g ∧
      ∀ r ∈ recs, ∃ row ∈ g.questions, r.question_title = row.rowQuestion.title := by
  unfold matrixGenerate at h
  cases hg : q.questionGroupItem with
  | none => rw [hg] at h; simp at h
  | some g =>
    rw [hg] at h
    simp only [Option.map_some', Option.getD_some] at h
    split at h
    · cases h
    · split at h
      · cases h
      · rename_i choiceValues heq
        exact ⟨g, rfl, matrixRowsLoop_titles choiceValues score g.questions s recs s1 h⟩

theorem generateAnswerApp_titles {cfg : Config} {gen : String → String}
    {q : Item} {score : ℚ} {s : RandS} {res : StratResult} {s1 : RandS}
    (h : generateAnswerApp cfg gen q score s = .ok (res, s1)) :
    ∀ r ∈ recordsOf res, titleFrom q r := by
  unfold generateAnswerApp at h
  cases hst : getStrategy q with
  | error e =>
    rw [hst] at h
    cases e with
    | valueError =>
      simp only [Except.ok.injEq, Prod.mk.injEq] at h
      rw [← h.1]
      simp [recordsOf]
    | indexError => cases h
    | keyError => cases h
    | typeError => cases h
  | ok strat =>
    rw [hst] at h
    cases strat with
    | text =>
      simp only [runStrategy] at h
      cases hrun : textGenerate cfg gen q s with
      | error e =>
        rw [hrun] at h
        cases e with
        | valueError =>
          simp only [Except.ok.injEq, Prod.mk.injEq] at h
          rw [← h.1]
          simp [recordsOf]
        | indexError => cases h
        | keyError => cases h
        | typeError => cases h
      | ok p =>
        obtain ⟨res0, s2⟩ := p
        rw [hrun] at h
        simp only [Except.ok.injEq, Prod.mk.injEq] at h
        intro r hr
        rw [← h.1] at hr
        obtain ⟨t, ht, htitle⟩ := textGenerate_title hrun r hr
        exact Or.inl ⟨t, ht, Or.inr htitle⟩
    | choice =>
      simp only [runStrategy] at h
      cases hrun : choiceGenerate cfg q score s with
      | error e =>
        rw [hrun] at h
        cases e with
        | valueError =>
          simp only [Except.ok.injEq, Prod.mk.injEq] at h
          rw [← h.1]
          simp [recordsOf]
        | indexError => cases h
        | keyError => cases h
        | typeError => cases h
      | ok p =>
        obtain ⟨r0, s2⟩ := p
        rw [hrun] at h
        simp only [Except.ok.injEq, Prod.mk.injEq] at h
        intro r hr
        rw [← h.1] at hr
        simp only [recordsOf, List.mem_singleton] at hr
        obtain ⟨t, ht, htitle⟩ := choiceGenerate_title hrun
        exact Or.inl ⟨t, ht, Or.inl (by rw [hr]; exact htitle)⟩
    | scale =>
      simp only [runStrategy] at h
      cases hrun : scaleGenerate q score s with
      | error e =>
        rw [hrun] at h
        cases e with
        | valueError =>
          simp only [Except.ok.injEq, Prod.mk.injEq] at h
          rw [← h.1]
          simp [recordsOf]
        | indexError => cases h
        | keyError => cases h
        | typeError => cases h
      | ok p =>
        obtain ⟨r0, s2⟩ := p
        rw [hrun] at h
        simp only [Except.ok.injEq, Prod.mk.injEq] at h
        intro r hr
        rw [← h.1] at hr
        simp only [recordsOf, List.mem_singleton] at hr
        obtain ⟨t, ht, htitle⟩ := scaleGenerate_title hrun
        exact Or.inl ⟨t, ht, Or.inl (by rw [hr]; exact htitle)⟩
    | matrix =>
      simp only [runStrategy] at h
      cases hrun : matrixGenerate q score s with
      | error e =>
        rw [hrun] at h
        cases e with
        | valueError =>
          simp only [Except.ok.injEq, Prod.mk.injEq] at h
          rw [← h.1]
          simp [recordsOf]
        | indexError => cases h
        | keyError => cases h
        | typeError => cases h
      | ok p =>
        obtain ⟨rs, s2⟩ := p
        rw [hrun] at h
        simp only [Except.ok.injEq, Prod.mk.injEq] at h
        intro r hr
        rw [← h.1] at hr
        simp only [recordsOf] at hr
        obtain ⟨g, hg, hrows⟩ := matrixGenerate_titles hrun
        exact Or.inr ⟨g, hg, hrows r hr⟩

theorem mem_extendEntries {res : StratResult} {es : List Entry}
    {r : AnswerRecord} (h : extendEntries res = .ok es)
    (hr : Entry.record r ∈ es) : r ∈ recordsOf res := by
  cases res with
  | noneRes => cases h
  | emptyDict =>
    simp only [extendEntries, Except.ok.injEq] at h
    rw [← h] at hr
    cases hr
  | record r0 =>
    simp only [extendEntries, Except.ok.injEq] at h
    rw [← h] at hr
    simp at hr
  | recs rs =>
    simp only [extendEntries, Except.ok.injEq] at h
    rw [← h] at hr
    simp only [List.mem_map] at hr
    obtain ⟨r2, hr2, he⟩ := hr
    injection he with he2
    rw [← he2]
    exact hr2

theorem mem_appendEntry {res : StratResult} {r : AnswerRecord}
    (hr : Entry.record r ∈ appendEntry res) : r ∈ recordsOf res := by
  cases res with
  | noneRes => cases hr
  | emptyDict => cases hr
  | record r0 =>
    simp only [appendEntry, List.mem_singleton] at hr
    injection hr with he
    rw [he]
    simp [recordsOf]
  | recs rs =>
    simp only [appendEntry] at hr
    split at hr
    · cases hr
    · simp at hr

theorem gatherAnswers_titles (cfg : Config) (gen : String → String) :
    ∀ (items : List Item) (score : ℚ) (s : RandS) (es : List Entry) (s1 : RandS),
      gatherAnswers cfg gen items score s = .ok (es, s1) →
      ∀ r : AnswerRecord, Entry.record r ∈ es → ∃ q ∈ items, titleFrom q r := by
  intro items
  induction items with
  | nil =>
    intro score s es s1 h r hr
    simp only [gatherAnswers, Except.ok.injEq, Prod.mk.injEq] at h
    rw [← h.1] at hr
    cases hr
  | cons q rest ih =>
    intro score s es s1 h r hr
    rw [gatherAnswers] at h
    by_cases hgr : q.questionGroupItem.isSome = true
    · rw [if_pos hgr] at h
      cases happ : generateAnswerApp cfg gen q score s with
      | error e => rw [happ] at h; cases h
      | ok p =>
        obtain ⟨res, sa⟩ := p
        rw [happ] at h
        simp only at h
        cases hext : extendEntries res with
        | error e => rw [hext] at h; cases h
        | ok es2 =>
          rw [hext] at h
          simp only at h
          cases hrec : gatherAnswers cfg gen rest score sa with
          | error e => rw [hrec] at h; cases h
          | ok p2 =>
            obtain ⟨tail, sb⟩ := p2
            rw [hrec] at h
            simp only [Except.ok.injEq, Prod.mk.injEq] at h
            rw [← h.1] at hr
            rcases List.mem_append.mp hr with hm | hm
            · have hrec2 := mem_extendEntries hext hm
              exact ⟨q, List.mem_cons_self _ _,
                generateAnswerApp_titles happ r hrec2⟩
            · obtain ⟨q2, hq2, ht2⟩ := ih score sa tail sb hrec r hm
              exact ⟨q2, List.mem_cons_of_mem _ hq2, ht2⟩
    · rw [if_neg hgr] at h
      by_cases hqi : q.questionItem.isSome = true
      · rw [if_pos hqi] at h
        cases happ : generateAnswerApp cfg gen q score s with
        | error e => rw [happ] at h; cases h
        | ok p =>
          obtain ⟨res, sa⟩ := p
          rw [happ] at h
          simp only at h
          cases hrec : gatherAnswers cfg gen rest score sa with
          | error e => rw [hrec] at h; cases h
          | ok p2 =>
            obtain ⟨tail, sb⟩ := p2
            rw [hrec] at h
            simp only [Except.ok.injEq, Prod.mk.injEq] at h
            rw [← h.1] at hr
            rcases List.mem_append.mp hr with hm | hm
            · exact ⟨q, List.mem_cons_self _ _,
                generateAnswerApp_titles happ r (mem_appendEntry hm)⟩
            · obtain ⟨q2, hq2, ht2⟩ := ih score sa tail sb hrec r hm
              exact ⟨q2, List.mem_cons_of_mem _ hq2, ht2⟩
      · rw [if_neg hqi] at h
        obtain ⟨q2, hq2, ht2⟩ := ih score s es s1 h r hr
        exact ⟨q2, List.mem_cons_of_mem _ hq2, ht2⟩

theorem keyMem_rowsFold_mono {k : String} :
    ∀ (rows : List GroupRow) (m : EntryMap), keyMem k m = true →
      keyMem k (rows.foldl
        (fun m2 row => dictInsert m2 (pyStrip row.rowQuestion.title) "entry.XXXX")
        m) = true := by
  intro rows
  induction rows with
  | nil => intro m hm; exact hm
  | cons row rest ih =>
    intro m hm
    simp only [List.foldl_cons]
    exact ih _ ((keyMem_dictInsert_iff m _ _ k).mpr (Or.inr hm))

theorem keyMem_rowsFold_mem {k : String} :
    ∀ (rows : List GroupRow) (m : EntryMap) (row : GroupRow), row ∈ rows →
      k = pyStrip row.rowQuestion.title →
      keyMem k (rows.foldl
        (fun m2 row => dictInsert m2 (pyStrip row.rowQuestion.title) "entry.XXXX")
        m) = true := by
  intro rows
  induction rows with
  | nil => intro m row hrow; cases hrow
  | cons row0 rest ih =>
    intro m row hrow hk
    simp only [List.foldl_cons]
    rcases List.mem_cons.mp hrow with heq | hmem
    · apply keyMem_rowsFold_mono
      exact (keyMem_dictInsert_iff m _ _ k).mpr (Or.inl (heq ▸ hk))
    · exact ih _ row hmem hk

theorem keyMem_gatherStep_mono {k : String} {m : EntryMap} {item : Item}
    (hm : keyMem k m = true) : keyMem k (gatherStep m item) = true := by
  unfold gatherStep
  have hm1 : keyMem k
      (match item.title with
       | some t => if pyStrip t = "" then m else dictInsert m (pyStrip t) "entry.XXXX"
       | none => m) = true := by
    cases item.title with
    | none => exact hm
    | some t =>
      simp only []
      split
      · exact hm
      · exact (keyMem_dictInsert_iff m _ _ k).mpr (Or.inr hm)
  cases item.questionGroupItem with
  | none => exact hm1
  | some g => exact keyMem_rowsFold_mono g.questions _ hm1

theorem keyMem_foldl_mono {k : String} :
    ∀ (items : List Item) (m : EntryMap), keyMem k m = true →
      keyMem k (items.foldl gatherStep m) = true := by
  intro items
  induction items with
  | nil => intro m hm; exact hm
  | cons q rest ih =>
    intro m hm
    simp only [List.foldl_cons]
    exact ih _ (keyMem_gatherStep_mono hm)

theorem gatherStep_title {m : EntryMap} {item : Item} {t : String}
    (ht : item.title = some t) (hne : pyStrip t ≠ "") :
    keyMem (pyStrip t) (gatherStep m item) = true := by
  unfold gatherStep
  rw [ht]
  simp only [if_neg hne]
  have hm1 : keyMem (pyStrip t) (dictInsert m (pyStrip t) "entry.XXXX") = true :=
    (keyMem_dictInsert_iff m _ _ _).mpr (Or.inl rfl)
  cases item.questionGroupItem with
  | none => exact hm1
  | some g => exact keyMem_rowsFold_mono g.questions _ hm1

theorem gatherStep_row {m : EntryMap} {item : Item} {g : GroupItem}
    {row : GroupRow} (hg : item.questionGroupItem = some g)
    (hrow : row ∈ g.questions) :
    keyMem (pyStrip row.rowQuestion.title) (gatherStep m item) = true := by
  unfold gatherStep
  rw [hg]
  exact keyMem_rowsFold_mem g.questions _ row hrow rfl

theorem gatherInit_covers :
    ∀ (items : List Item) (m : EntryMap) (q : Item), q ∈ items →
      (∀ t, q.title = some t → pyStrip t ≠ "" →
        keyMem (pyStrip t) (items.foldl gatherStep m) = true) ∧
      (∀ g row, q.questionGroupItem = some g → row ∈ g.questions →
        keyMem (pyStrip row.rowQuestion.title) (items.foldl gatherStep m) = true) := by
  intro items
  induction items with
  | nil => intro m q hq; cases hq
  | cons q0 rest ih =>
    intro m q hq
    rcases List.mem_cons.mp hq with heq | hmem
    · subst heq
      constructor
      · intro t ht hne
        simp only [List.foldl_cons]
        exact keyMem_foldl_mono rest _ (gatherStep_title ht hne)
      · intro g row hg hrow
        simp only [List.foldl_cons]
        exact keyMem_foldl_mono rest _ (gatherStep_row hg hrow)
    · simp only [List.foldl_cons]
      exact ih (gatherStep m q0) q hmem

theorem mapEntryLoop_error_val (m : EntryMap) :
    ∀ (data : List Entry) (e : PyErr),
      mapEntryLoop m data = .error e → e = .valueError := by
  intro data
  induction data with
  | nil => intro e h; cases h
  | cons ent rest ih =>
    intro e h
    cases ent with
    | record r =>
      rw [mapEntryLoop] at h
      split at h
      · cases hrec : mapEntryLoop m rest with
        | error e2 =>
          rw [hrec] at h
          injection h with he
          exact he ▸ ih e2 hrec
        | ok tail => rw [hrec] at h; cases h
      · split at h
        · injection h with he
          exact he.symm
        · cases hrec : mapEntryLoop m rest with
          | error e2 =>
            rw [hrec] at h
            injection h with he
            exact he ▸ ih e2 hrec
          | ok tail => rw [hrec] at h; cases h
    | str s2 =>
      have hstep : mapEntryLoop m (Entry.str s2 :: rest) =
          (match mapEntryLoop m rest with
           | .error e2 => .error e2
           | .ok tail => .ok (Entry.str s2 :: tail)) := rfl
      rw [hstep] at h
      cases hrec : mapEntryLoop m rest with
      | error e2 =>
        rw [hrec] at h
        injection h with he
        exact he ▸ ih e2 hrec
      | ok tail => rw [hrec] at h; cases h
    | listEnt rs =>
      have hstep : mapEntryLoop m (Entry.listEnt rs :: rest) =
          (match mapEntryLoop m rest with
           | .error e2 => .error e2
           | .ok tail => .ok (Entry.listEnt rs :: tail)) := rfl
      rw [hstep] at h
      cases hrec : mapEntryLoop m rest with
      | error e2 =>
        rw [hrec] at h
        injection h with he
        exact he ▸ ih e2 hrec
      | ok tail => rw [hrec] at h; cases h

theorem mapEntryLoop_error_iff (m : EntryMap) :
    ∀ data : List Entry,
      mapEntryLoop m data = .error .valueError ↔
        ∃ r : AnswerRecord, Entry.record r ∈ data ∧
          pyStrip r.question_title ≠ "" ∧
          lookupKey (pyStrip r.question_title) m = none := by
  intro data
  induction data with
  | nil => simp [mapEntryLoop]
  | cons ent rest ih =>
    cases ent with
    | record r =>
      rw [mapEntryLoop]
      by_cases ht : pyStrip r.question_title = ""
      · rw [if_pos ht]
        constructor
        · intro hl
          cases hrec : mapEntryLoop m rest with
          | error e2 =>
            have he2 := mapEntryLoop_error_val m rest e2 hrec
            subst he2
            obtain ⟨r2, hr2, hne2, hlk2⟩ := ih.mp hrec
            exact ⟨r2, List.mem_cons_of_mem _ hr2, hne2, hlk2⟩
          | ok tail => rw [hrec] at hl; cases hl
        · rintro ⟨r2, hr2, hne2, hlk2⟩
          rcases List.mem_cons.mp hr2 with heq | hmem
          · injection heq with he
            rw [← he] at ht
            exact absurd ht hne2
          · rw [ih.mpr ⟨r2, hmem, hne2, hlk2⟩]
      · rw [if_neg ht]
        cases hlk : lookupKey (pyStrip r.question_title) m with
        | none =>
          constructor
          · intro _
            exact ⟨r, List.mem_cons_self _ _, ht, hlk⟩
          · intro _
            rfl
        | some eid =>
          constructor
          · intro hl
            cases hrec : mapEntryLoop m rest with
            | error e2 =>
              have he2 := mapEntryLoop_error_val m rest e2 hrec
              subst he2
              obtain ⟨r2, hr2, hne2, hlk2⟩ := ih.mp hrec
              exact ⟨r2, List.mem_cons_of_mem _ hr2, hne2, hlk2⟩
            | ok tail => rw [hrec] at hl; cases hl
          · rintro ⟨r2, hr2, hne2, hlk2⟩
            rcases List.mem_cons.mp hr2 with heq | hmem
            · injection heq with he
              rw [← he] at hlk
              rw [hlk2] at hlk
              cases hlk
            · rw [ih.mpr ⟨r2, hmem, hne2, hlk2⟩]
      | str s2 =>
        have hstep : mapEntryLoop m (Entry.str s2 :: rest) =
            (match mapEntryLoop m rest with
             | .error e2 => .error e2
             | .ok tail => .ok (Entry.str s2 :: tail)) := rfl
        rw [hstep]
        constructor
        · intro hl
          cases hrec : mapEntryLoop m rest with
          | error e2 =>
            have he2 := mapEntryLoop_error_val m rest e2 hrec
            subst he2
            obtain ⟨r2, hr2, hne2, hlk2⟩ := ih.mp hrec
            exact ⟨r2, List.mem_cons_of_mem _ hr2, hne2, hlk2⟩
          | ok tail => rw [hrec] at hl; cases hl
        · rintro ⟨r2, hr2, hne2, hlk2⟩
          rcases List.mem_cons.mp hr2 with heq | hmem
          · cases heq
          · rw [ih.mpr ⟨r2, hmem, hne2, hlk2⟩]
      | listEnt rs =>
        have hstep : mapEntryLoop m (Entry.listEnt rs :: rest) =
            (match mapEntryLoop m rest with
             | .error e2 => .error e2
             | .ok tail => .ok (Entry.listEnt rs :: tail)) := rfl
        rw [hstep]
        constructor
        · intro hl
          cases hrec : mapEntryLoop m rest with
          | error e2 =>
            have he2 := mapEntryLoop_error_val m rest e2 hrec
            subst he2
            obtain ⟨r2, hr2, hne2, hlk2⟩ := ih.mp hrec
            exact ⟨r2, List.mem_cons_of_mem _ hr2, hne2, hlk2⟩
          | ok tail => rw [hrec] at hl; cases hl
        · rintro ⟨r2, hr2, hne2, hlk2⟩
          rcases List.mem_cons.mp hr2 with heq | hmem
          · cases heq
          · rw [ih.mpr ⟨r2, hmem, hne2, hlk2⟩]

/-- C2 counterexample: with an empty loaded map (falsy dict), the
resolver returns the data early without raising, even though the
record's trimmed non-empty title "Q" has no entry in the map — where the
claim demands an UnmappedQuestion error. -/
theorem C2_counterexample :
    mapEntryWithQuestion [] [Entry.record ⟨"<TO ADD>", "q1", "Q", ["a"]⟩] =
      .ok (.dataOnly [Entry.record ⟨"<TO ADD>", "q1", "Q", ["a"]⟩]) ∧
    pyStrip "Q" ≠ "" ∧
    lookupKey (pyStrip "Q") [] = none :=
  ⟨by decide, by decide, by decide⟩

/-- C2 amended: resolution raises the UnmappedQuestion ValueError exactly
when the loaded map is non-empty and some record's trimmed non-empty
title is absent from it; and round-trip: every record produced by the
gathering pipeline from a schema resolves without error against the map
`gather_entry_data_init` builds from the same schema. -/
theorem C2_entry_resolution_amended :
    (∀ (m : EntryMap) (data : List Entry),
      mapEntryWithQuestion m data = .error .valueError ↔
        (m ≠ [] ∧ ∃ r : AnswerRecord, Entry.record r ∈ data ∧
          pyStrip r.question_title ≠ "" ∧
          lookupKey (pyStrip r.question_title) m = none)) ∧
    (∀ (cfg : Config) (gen : String → String) (items : List Item) (score : ℚ)
        (s : RandS) (es : List Entry) (s1 : RandS),
      gatherAnswers cfg gen items score s = .ok (es, s1) →
      ∃ out, mapEntryWithQuestion (gatherEntryDataInit items) es = .ok out) := by
  constructor
  · intro m data
    unfold mapEntryWithQuestion
    simp only []
    by_cases hm : m = []
    · rw [if_pos hm]
      simp [hm]
    · rw [if_neg hm]
      cases hl : mapEntryLoop m data with
      | error e =>
        have he := mapEntryLoop_error_val m data e hl
        subst he
        simp only []
        constructor
        · intro _
          exact ⟨hm, (mapEntryLoop_error_iff m data).mp hl⟩
        · intro _
          trivial
      | ok updated =>
        simp only []
        constructor
        · intro hcon
          cases hcon
        · rintro ⟨hm2, hex⟩
          have := ((mapEntryLoop_error_iff m data).mpr hex).symm.trans hl
          cases this
  · intro cfg gen items score s es s1 h
    unfold mapEntryWithQuestion
    simp only []
    by_cases hm : gatherEntryDataInit items = []
    · rw [if_pos hm]
      exact ⟨_, rfl⟩
    · rw [if_neg hm]
      cases hl : mapEntryLoop (gatherEntryDataInit items) es with
      | ok updated => exact ⟨_, rfl⟩
      | error e =>
        exfalso
        have he := mapEntryLoop_error_val _ es e hl
        subst he
        obtain ⟨r, hr, hne, hlk⟩ := (mapEntryLoop_error_iff _ es).mp hl
        obtain ⟨q, hq, htf⟩ := gatherAnswers_titles cfg gen items score s es s1 h r hr
        have hkm : keyMem (pyStrip r.question_title) (gatherEntryDataInit items) = true := by
          rcases htf with ⟨t, ht, hor⟩ | ⟨g, hg, row, hrow, htit⟩
          · have hst : pyStrip r.question_title = pyStrip t := by
              rcases hor with h1 | h1
              · rw [h1]
              · rw [h1, pyStrip_idem]
            have hne2 : pyStrip t ≠ "" := by rw [← hst]; exact hne
            rw [hst]
            exact (gatherInit_covers items [] q hq).1 t ht hne2
          · rw [htit]
            exact (gatherInit_covers items [] q hq).2 g row hg hrow
        rw [lookupKey_none_iff] at hlk
        rw [hkm] at hlk
        cases hlk

/-- Witness for the amended C2: a one-question schema whose gathered
record resolves against the map built from the same schema. -/
theorem C2_entry_resolution_amended_witness :
    ∃ out,
      mapEntryWithQuestion
        (gatherEntryDataInit [⟨some "Q", some ⟨⟨"qs", false, none, some ⟨1, 1⟩⟩⟩, none⟩])
        [Entry.record ⟨"<TO ADD>", "qs", "Q", ["1"]⟩] = .ok out :=
  C2_entry_resolution_amended.2 ⟨[], [], [], ""⟩ (fun _ => "")
    [⟨some "Q", some ⟨⟨"qs", false, none, some ⟨1, 1⟩⟩⟩, none⟩]
    (mkRat 7 10) [0, 0] [Entry.record ⟨"<TO ADD>", "qs", "Q", ["1"]⟩] []
    (by decide)

/-!
Claim C6: payload structure.
-/

/-- The page-history marker as the spec describes it: listing page
indices 0 through sectionCount. -/
def pageHistoryMarker (sectionCount : Nat) : String :=
  "&pageHistory=" ++
    joinWith "," ((List.range (sectionCount + 1)).map (fun i => toString i))

/-- The spec-side pair list of one resolved entry: one
`identifier=value` part per answer value, percent-encoded, in the order
the values were generated. -/
def entryPairsSpec : Entry → List String
  | .record r => r.answers.map (fun a => r.entryId ++ "=" ++ quotePlus a)
  | _ => []

/-- Resolution rewrites only the entry id: question id, title and the
answer values (and their order) are preserved. -/
def resolvedRel : Entry → Entry → Prop
  | .record a, .record b =>
      b.questionId = a.questionId ∧ b.question_title = a.question_title ∧
        b.answers = a.answers
  | .str a, .str b => b = a
  | .listEnt a, .listEnt b => b = a
  | _, _ => False

theorem mapEntryLoop_forall (m : EntryMap) :
    ∀ (data updated : List Entry), mapEntryLoop m data = .ok updated →
      List.Forall₂ resolvedRel data updated := by
  intro data
  induction data with
  | nil =>
    intro updated h
    simp only [mapEntryLoop, Except.ok.injEq] at h
    rw [← h]
    exact List.Forall₂.nil
  | cons ent rest ih =>
    intro updated h
    cases ent with
    | record r =>
      rw [mapEntryLoop] at h
      split at h
      · cases hrec : mapEntryLoop m rest with
        | error e => rw [hrec] at h; cases h
        | ok tail =>
          rw [hrec] at h
          simp only [Except.ok.injEq] at h
          rw [← h]
          exact List.Forall₂.cons ⟨rfl, rfl, rfl⟩ (ih tail hrec)
      · split at h
        · cases h
        · cases hrec : mapEntryLoop m rest with
          | error e => rw [hrec] at h; cases h
          | ok tail =>
            rw [hrec] at h
            simp only [Except.ok.injEq] at h
            rw [← h]
            exact List.Forall₂.cons ⟨rfl, rfl, rfl⟩ (ih tail hrec)
    | str s2 =>
      have hstep : mapEntryLoop m (Entry.str s2 :: rest) =
          (match mapEntryLoop m rest with
           | .error e2 => .error e2
           | .ok tail => .ok (Entry.str s2 :: tail)) := rfl
      rw [hstep] at h
      cases hrec : mapEntryLoop m rest with
      | error e => rw [hrec] at h; cases h
      | ok tail =>
        rw [hrec] at h
        simp only [Except.ok.injEq] at h
        rw [← h]
        exact List.Forall₂.cons rfl (ih tail hrec)
    | listEnt rs =>
      have hstep : mapEntryLoop m (Entry.listEnt rs :: rest) =
          (match mapEntryLoop m rest with
           | .error e2 => .error e2
           | .ok tail => .ok (Entry.listEnt rs :: tail)) := rfl
      rw [hstep] at h
      cases hrec : mapEntryLoop m rest with
      | error e => rw [hrec] at h; cases h
      | ok tail =>
        rw [hrec] at h
        simp only [Except.ok.injEq] at h
        rw [← h]
        exact List.Forall₂.cons rfl (ih tail hrec)

theorem mapEntry_tup {m : EntryMap} {data resolved : List Entry} {sc : Nat}
    (h : mapEntryWithQuestion m data = .ok (.tup resolved sc)) :
    sc = sectionCountOf m ∧ mapEntryLoop m data = .ok resolved := by
  unfold mapEntryWithQuestion at h
  simp only [] at h
  split at h
  · simp at h
  · cases hl : mapEntryLoop m data with
    | error e => rw [hl] at h; cases h
    | ok updated =>
      rw [hl] at h
      simp only [Except.ok.injEq, MapReturn.tup.injEq] at h
      exact ⟨h.2.symm, by rw [h.1]⟩

theorem buildParts_ok :
    ∀ (es : List Entry) (parts : List String), buildParts es = .ok parts →
      parts = es.flatMap entryPairsSpec ∧
        ∀ e ∈ es, ∃ r, e = Entry.record r := by
  intro es
  induction es with
  | nil =>
    intro parts h
    simp only [buildParts, Except.ok.injEq] at h
    rw [← h]
    exact ⟨rfl, by simp⟩
  | cons e rest ih =>
    intro parts h
    rw [buildParts] at h
    cases e with
    | record r =>
      simp only [entryParts] at h
      cases hrec : buildParts rest with
      | error e2 => rw [hrec] at h; cases h
      | ok tail =>
        rw [hrec] at h
        simp only [Except.ok.injEq] at h
        obtain ⟨htail, hall⟩ := ih tail hrec
        rw [← h]
        constructor
        · rw [htail]
          simp [entryPairsSpec]
        · intro e2 he2
          rcases List.mem_cons.mp he2 with he2 | he2
          · exact ⟨r, he2⟩
          · exact hall e2 he2
    | str s2 => simp only [entryParts] at h; cases h
    | listEnt rs => simp only [entryParts] at h; cases h

/-- C6: a successfully built payload is the ampersand-join of a first
part — the page-history marker listing indices 0..sectionCount when the
detected section count is positive, the default marker otherwise —
followed by one identifier=value part per answer value (percent-encoded),
in gathering order: resolution preserves each record's position, title,
and value order, and multi-value records expand to repeated pairs. -/
theorem C6_payload_structure (cfg : Config) (gen : String → String)
    (m : EntryMap) (questions : List Item) (score : ℚ) (s : RandS)
    (payload : String)
    (h : generateSubmissionPayload cfg gen m questions score s = .ok payload) :
    ∃ gathered s1 resolved,
      gatherAnswers cfg gen questions score s = .ok (gathered, s1) ∧
      mapEntryWithQuestion m gathered = .ok (.tup resolved (sectionCountOf m)) ∧
      List.Forall₂ resolvedRel gathered resolved ∧
      (∀ e ∈ resolved, ∃ r, e = Entry.record r) ∧
      payload = joinWith "&"
        ((if 0 < sectionCountOf m then pageHistoryMarker (sectionCountOf m)
          else "usp=pp_url") :: resolved.flatMap entryPairsSpec) := by
  unfold generateSubmissionPayload at h
  cases hg : gatherAnswers cfg gen questions score s with
  | error e => rw [hg] at h; cases h
  | ok p =>
    obtain ⟨gathered, s1⟩ := p
    rw [hg] at h
    simp only at h
    cases hmap : mapEntryWithQuestion m gathered with
    | error e => rw [hmap] at h; cases h
    | ok ret =>
      rw [hmap] at h
      cases ret with
      | dataOnly d => simp only [] at h; cases h
      | tup resolved sc =>
        simp only [] at h
        obtain ⟨hsc, hloop⟩ := mapEntry_tup hmap
        subst hsc
        cases hbp : buildParts resolved with
        | error e => rw [hbp] at h; cases h
        | ok parts =>
          rw [hbp] at h
          simp only [Except.ok.injEq] at h
          obtain ⟨hparts, hall⟩ := buildParts_ok resolved parts hbp
          refine ⟨gathered, s1, resolved, rfl, hmap, mapEntryLoop_forall m gathered resolved hloop, hall, ?_⟩
          rw [← h, hparts]
          rfl

/-- Witness for C6 on a one-question schema with a sectionless map. -/
theorem C6_payload_structure_witness :
    ∃ gathered s1 resolved,
      gatherAnswers ⟨[], [], [], ""⟩ (fun _ => "")
          [⟨some "Q", some ⟨⟨"qs", false, none, some ⟨1, 1⟩⟩⟩, none⟩]
          (mkRat 7 10) [0, 0] = .ok (gathered, s1) ∧
      mapEntryWithQuestion [("Q", "entry.1")] gathered =
          .ok (.tup resolved (sectionCountOf [("Q", "entry.1")])) ∧
      List.Forall₂ resolvedRel gathered resolved ∧
      (∀ e ∈ resolved, ∃ r, e = Entry.record r) ∧
      "usp=pp_url&entry.1=1" = joinWith "&"
        ((if 0 < sectionCountOf [("Q", "entry.1")] then
            pageHistoryMarker (sectionCountOf [("Q", "entry.1")])
          else "usp=pp_url") :: resolved.flatMap entryPairsSpec) :=
  C6_payload_structure ⟨[], [], [], ""⟩ (fun _ => "") [("Q", "entry.1")]
    [⟨some "Q", some ⟨⟨"qs", false, none, some ⟨1, 1⟩⟩⟩, none⟩]
    (mkRat 7 10) [0, 0] "usp=pp_url&entry.1=1" (by decide)
